import Mathlib

/-!
Shallow embedding of the ChampSim DRAM memory controller
(`src/dram_controller.cc`) for specification checking.

Machine integers are modelled as `Nat`; the source's `unsigned long`
subtractions in `is_collision` never underflow (the offset is the low
bits of the same address), so plain `Nat` subtraction is faithful.
Time (`champsim::chrono::clock::time_point`, picoseconds) is a `Nat`;
`time_point::max()` is the constant `timeMax`.

The header `dram_controller.h` is not part of the sources.  The record
layouts of `request_type`, `packet_type`, `value_type` (bank request) and
the slicer index constants are modelled from the spec (sections 3 and 4.1):
a request owns a nonempty packet list, carries the request-level
`forward_checked` / `scheduled` / `ready_time` fields, and the
request-level accessors used by the .cc (`v_address`, `data`,
`pf_metadata`, `instr_depend_on_me`, `to_return`) denote the first
packet's fields.  The address bit layout, LSB upward, is
[offset | column | bank | rank | channel | row].
-/

/-- Slicer field widths, produced by `make_slicer` from the configured
counts via `champsim::lg2` (floor log2, here `Nat.log2`). -/
structure AddressMapping where
  offW : Nat
  colW : Nat
  bankW : Nat
  rankW : Nat
  chanW : Nat
  rowW : Nat
deriving Repr, DecidableEq

/-- DRAM_ADDRESS_MAPPING::make_slicer: contiguous extents from bit 0 upward
in the order offset, column, bank, rank, channel, row; widths are lg2 of
rows, columns/prefetch_size, ranks, banks, channels and
channel_width*prefetch_size. -/
def make_slicer (channel_width pref_size channels banks columns ranks rows : Nat) :
    AddressMapping :=
  { offW := Nat.log2 (channel_width * pref_size)
  , colW := Nat.log2 (columns / pref_size)
  , bankW := Nat.log2 banks
  , rankW := Nat.log2 ranks
  , chanW := Nat.log2 channels
  , rowW := Nat.log2 rows }

def AddressMapping.get_offset (am : AddressMapping) (a : Nat) : Nat :=
  a % 2 ^ am.offW

def AddressMapping.get_column (am : AddressMapping) (a : Nat) : Nat :=
  a / 2 ^ am.offW % 2 ^ am.colW

def AddressMapping.get_bank (am : AddressMapping) (a : Nat) : Nat :=
  a / 2 ^ (am.offW + am.colW) % 2 ^ am.bankW

def AddressMapping.get_rank (am : AddressMapping) (a : Nat) : Nat :=
  a / 2 ^ (am.offW + am.colW + am.bankW) % 2 ^ am.rankW

def AddressMapping.get_channel (am : AddressMapping) (a : Nat) : Nat :=
  a / 2 ^ (am.offW + am.colW + am.bankW + am.rankW) % 2 ^ am.chanW

def AddressMapping.get_row (am : AddressMapping) (a : Nat) : Nat :=
  a / 2 ^ (am.offW + am.colW + am.bankW + am.rankW + am.chanW) % 2 ^ am.rowW

/-- DRAM_ADDRESS_MAPPING::ranks: 2 to the rank slice width. -/
def AddressMapping.ranks (am : AddressMapping) : Nat := 2 ^ am.rankW

/-- DRAM_ADDRESS_MAPPING::banks: 2 to the bank slice width. -/
def AddressMapping.banks (am : AddressMapping) : Nat := 2 ^ am.bankW

/-- DRAM_ADDRESS_MAPPING::is_collision: the addresses agree after
subtracting their offsets (same block). -/
def AddressMapping.is_collision (am : AddressMapping) (a b : Nat) : Bool :=
  decide (a - am.get_offset a = b - am.get_offset b)

/-- Model of `champsim::chrono::clock::time_point::max()` (int64 picosecond
count). -/
def timeMax : Nat := 2 ^ 63 - 1

/-- DRAM_CHANNEL::packet_type, modelled from the spec: address, virtual
address, opaque data, prefetch metadata, ordered instruction-dependency
set, and the upstream return sinks (named by `Nat` identifiers standing
for the `std::deque<response_type>*` pointers). -/
structure Packet where
  address : Nat
  v_address : Nat
  data : Nat
  pf_metadata : Nat
  instr_depend_on_me : List Nat
  to_return : List Nat
deriving Repr, DecidableEq

def defPacket : Packet := ⟨0, 0, 0, 0, [], []⟩

instance : Inhabited Packet := ⟨defPacket⟩

/-- DRAM_CHANNEL::request_type, modelled from the spec: block address, the
queue-entry flags and timestamp, and one or more packets. -/
structure Request where
  address : Nat
  forward_checked : Bool
  scheduled : Bool
  ready_time : Nat
  packets : List Packet
deriving Repr, DecidableEq

def defRequest : Request := ⟨0, false, false, 0, []⟩

instance : Inhabited Request := ⟨defRequest⟩

/-- Request-level accessor used by the .cc; denotes the first packet's
field (modelled from the spec, the header being absent). -/
def Request.v_address (r : Request) : Nat := (r.packets.headD defPacket).v_address

def Request.data (r : Request) : Nat := (r.packets.headD defPacket).data

def Request.pf_metadata (r : Request) : Nat := (r.packets.headD defPacket).pf_metadata

def Request.instr_depend_on_me (r : Request) : List Nat :=
  (r.packets.headD defPacket).instr_depend_on_me

def Request.to_return (r : Request) : List Nat := (r.packets.headD defPacket).to_return

/-- response_type: address, v_address, data, pf_metadata and the
dependency set. -/
structure Response where
  address : Nat
  v_address : Nat
  data : Nat
  pf_metadata : Nat
  instr_depend_on_me : List Nat
deriving Repr, DecidableEq

/-- Response built from a queue entry (operate / finish_dbus_request). -/
def mkResponse (r : Request) : Response :=
  ⟨r.address, r.v_address, r.data, r.pf_metadata, r.instr_depend_on_me⟩

/-- DRAM_CHANNEL bank request slot.  The source's iterator back-reference
into RQ/WQ is the index `pkt` together with the queue tag `fromWQ`
(recorded at scheduling time from the then-active mode). -/
structure BankRequest where
  valid : Bool
  row_buffer_hit : Bool
  open_row : Option Nat
  ready_time : Nat
  pkt : Nat
  fromWQ : Bool
deriving Repr, DecidableEq

def defBankRequest : BankRequest := ⟨false, false, none, 0, 0, false⟩

instance : Inhabited BankRequest := ⟨defBankRequest⟩

/-- The per-channel statistics counters touched by the modelled code. -/
structure Stats where
  RQ_ROW_BUFFER_HIT : Nat
  RQ_ROW_BUFFER_MISS : Nat
  WQ_ROW_BUFFER_HIT : Nat
  WQ_ROW_BUFFER_MISS : Nat
  WQ_FULL : Nat
  dbus_cycle_congested : Nat
  dbus_count_congested : Nat
deriving Repr, DecidableEq

def defStats : Stats := ⟨0, 0, 0, 0, 0, 0, 0⟩

/-- Channel timing constants (picosecond counts). -/
structure Timing where
  clock_period : Nat
  tRP : Nat
  tRCD : Nat
  tCAS : Nat
  turnaround : Nat
  dbus_return : Nat
deriving Repr, DecidableEq

/-- DRAM_CHANNEL state. -/
structure Channel where
  RQ : List (Option Request)
  WQ : List (Option Request)
  bank_request : List BankRequest
  active_request : Option Nat
  dbus_cycle_available : Nat
  write_mode : Bool
  warmup : Bool
  current_time : Nat
  am : AddressMapping
  stats : Stats
deriving Repr, DecidableEq

/-- DRAM_CHANNEL constructor: the bank request array has
ranks * banks entries. -/
def mkChannel (am : AddressMapping) (rq_size wq_size : Nat) : Channel :=
  { RQ := List.replicate rq_size none
  , WQ := List.replicate wq_size none
  , bank_request := List.replicate (am.ranks * am.banks) defBankRequest
  , active_request := none
  , dbus_cycle_available := 0
  , write_mode := false
  , warmup := false
  , current_time := 0
  , am := am
  , stats := defStats }

/-- DRAM_CHANNEL::bank_request_index. -/
def bank_request_index (am : AddressMapping) (addr : Nat) : Nat :=
  am.get_rank addr * am.banks + am.get_bank addr

/-- Structural worker for set_union; the fuel is the total length, which
each step decreases, so it never runs out. -/
def setUnionGo : Nat → List Nat → List Nat → List Nat
  | 0, _, _ => []
  | _ + 1, [], ys => ys
  | _ + 1, x :: xs, [] => x :: xs
  | f + 1, x :: xs, y :: ys =>
    if x < y then x :: setUnionGo f xs (y :: ys)
    else if y < x then y :: setUnionGo f (x :: xs) ys
    else x :: setUnionGo f xs ys

/-- std::set_union on (sorted) ranges: merge, taking one copy of elements
present in both. -/
def set_union (xs ys : List Nat) : List Nat :=
  setUnionGo (xs.length + ys.length) xs ys

/-- Indexed any over a list, starting at index k. -/
def anyIdx (p : Nat → α → Bool) : Nat → List α → Bool
  | _, [] => false
  | k, x :: xs => p k x || anyIdx p (k + 1) xs

/-- The checker lambda of the collision passes: the entry is occupied and
its address collides with the probe address. -/
def occCollides (am : AddressMapping) (addr : Nat) : Option Request → Bool
  | some r => am.is_collision r.address addr
  | none => false

/-- There is an occupied colliding entry at some index other than i
(the union of the source's forward and backward scans). -/
def hasOtherCollision (am : AddressMapping) (wq : List (Option Request))
    (i : Nat) (addr : Nat) : Bool :=
  anyIdx (fun j e => decide (j ≠ i) && occCollides am addr e) 0 wq

/-- One iteration of the check_write_collision loop, at queue index i. -/
def wccStep (am : AddressMapping) (wq : List (Option Request)) (i : Nat) :
    List (Option Request) :=
  match wq[i]? with
  | some (some r) =>
    if r.forward_checked then wq
    else if hasOtherCollision am wq i r.address then wq.set i none
    else wq.set i (some { r with forward_checked := true })
  | _ => wq

/-- DRAM_CHANNEL::check_write_collision. -/
def check_write_collision (am : AddressMapping) (wq : List (Option Request)) :
    List (Option Request) :=
  (List.range wq.length).foldl (wccStep am) wq

/-- std::find_if over a queue for the first occupied colliding entry,
returning the entry. -/
def findCollision (am : AddressMapping) (addr : Nat) :
    List (Option Request) → Option Request
  | [] => none
  | some r :: rest =>
    if am.is_collision r.address addr then some r else findCollision am addr rest
  | none :: rest => findCollision am addr rest

/-- First occupied colliding index, counting from k. -/
def findCollIdx (am : AddressMapping) (addr : Nat) :
    Nat → List (Option Request) → Option Nat
  | _, [] => none
  | k, some r :: rest =>
    if am.is_collision r.address addr then some k else findCollIdx am addr (k + 1) rest
  | k, none :: rest => findCollIdx am addr (k + 1) rest

/-- The source's two-direction RQ scan: first the backward range
[begin, i), then the forward range (i, end). -/
def findOtherIdx (am : AddressMapping) (rq : List (Option Request))
    (i : Nat) (addr : Nat) : Option Nat :=
  match findCollIdx am addr 0 (rq.take i) with
  | some j => some j
  | none => (findCollIdx am addr 0 (rq.drop (i + 1))).map (· + i + 1)

/-- Merge one incoming packet into a packet list: the first packet with
the same exact address has its dependency and return sets replaced by the
set_union with the incoming packet's; with no exact-address match the list
is unchanged (the source has no append branch). -/
def mergePacket (ps : List Packet) (m : Packet) : List Packet :=
  match ps with
  | [] => []
  | p :: rest =>
    if p.address = m.address then
      { p with instr_depend_on_me := set_union p.instr_depend_on_me m.instr_depend_on_me
             , to_return := set_union p.to_return m.to_return } :: rest
    else p :: mergePacket rest m

/-- Merge every packet of the discarded request into the surviving one. -/
def mergeRequest (dst src : Request) : Request :=
  { dst with packets := src.packets.foldl mergePacket dst.packets }

/-- Apply the packet merge at queue index j. -/
def mergeAt (rq : List (Option Request)) (j : Nat) (src : Request) :
    List (Option Request) :=
  match rq[j]? with
  | some (some d) => rq.set j (some (mergeRequest d src))
  | _ => rq

/-- The forwarded response (check_read_collision): the read's addresses,
metadata and dependencies with the write entry's data. -/
def fwdResponse (r w : Request) : Response :=
  ⟨r.address, r.v_address, w.data, r.pf_metadata, r.instr_depend_on_me⟩

/-- One iteration of the check_read_collision loop at RQ index i, over the
(read-only) WQ.  The merge branches follow the source with its two slips
repaired as the spec directs (`req_it` for `rq_it`, arrow for dot). -/
def rccStep (am : AddressMapping) (wq : List (Option Request))
    (st : List (Option Request) × List (Nat × Response)) (i : Nat) :
    List (Option Request) × List (Nat × Response) :=
  match st.1[i]? with
  | some (some r) =>
    if r.forward_checked then st
    else
      match findCollision am r.address wq with
      | some w =>
        (st.1.set i none, st.2 ++ r.to_return.map (fun s => (s, fwdResponse r w)))
      | none =>
        match findOtherIdx am st.1 i r.address with
        | some j => ((mergeAt st.1 j r).set i none, st.2)
        | none => (st.1.set i (some { r with forward_checked := true }), st.2)
  | _ => st

/-- DRAM_CHANNEL::check_read_collision over the queue pair; WQ is only
read.  Emits the write-forwarded responses as (sink, response) pairs. -/
def check_read_collision (am : AddressMapping) (wq rq : List (Option Request)) :
    List (Option Request) × List (Nat × Response) :=
  (List.range rq.length).foldl (rccStep am wq) (rq, [])

/-- Bank request at index i; out-of-range reads yield the default slot
(in-bounds access is claim C10's concern). -/
def getBr (ch : Channel) (i : Nat) : BankRequest :=
  (ch.bank_request[i]?).getD defBankRequest

def setBr (ch : Channel) (i : Nat) (br : BankRequest) : Channel :=
  { ch with bank_request := ch.bank_request.set i br }

/-- Mutate the occupied entry at index i through the bank request's
back-reference; an empty slot is left alone (dereferencing it is
undefined behaviour in the source). -/
def updateOptSlot (q : List (Option Request)) (i : Nat) (f : Request → Request) :
    List (Option Request) :=
  match q[i]? with
  | some (some r) => q.set i (some (f r))
  | _ => q

def Channel.getQ (ch : Channel) (fromW : Bool) : List (Option Request) :=
  if fromW then ch.WQ else ch.RQ

def Channel.setQ (ch : Channel) (fromW : Bool) (q : List (Option Request)) : Channel :=
  if fromW then { ch with WQ := q } else { ch with RQ := q }

def Channel.updateSlot (ch : Channel) (fromW : Bool) (i : Nat)
    (f : Request → Request) : Channel :=
  ch.setQ fromW (updateOptSlot (ch.getQ fromW) i f)

def Channel.resetSlot (ch : Channel) (fromW : Bool) (i : Nat) : Channel :=
  ch.setQ fromW ((ch.getQ fromW).set i none)

/-- Occupied-slot count of a queue (std::count_if over has_value). -/
def occupancy (q : List (Option Request)) : Nat :=
  q.countP (fun e => e.isSome)

/-- DRAM_CHANNEL::finish_dbus_request.  Returns the new channel, the
responses pushed (sink, response) and the progress count. -/
def finish_dbus_request (ch : Channel) : Channel × List (Nat × Response) × Nat :=
  match ch.active_request with
  | none => (ch, [], 0)
  | some a =>
    let br := getBr ch a
    if br.ready_time ≤ ch.current_time then
      let out :=
        match (ch.getQ br.fromWQ)[br.pkt]? with
        | some (some r) => r.to_return.map (fun s => (s, mkResponse r))
        | _ => []
      let ch1 := setBr ch a { br with valid := false }
      let ch2 := ch1.resetSlot br.fromWQ br.pkt
      ({ ch2 with active_request := none }, out, 1)
    else (ch, [], 0)

/-- The mode-switch condition of swap_write_mode, from the source. -/
def swapCond (ch : Channel) : Bool :=
  let HIGH := ch.WQ.length * 7 / 8
  let LOW := ch.WQ.length * 6 / 8
  let wq_occu := occupancy ch.WQ
  let rq_occu := occupancy ch.RQ
  (!ch.write_mode && (decide (HIGH ≤ wq_occu) || (decide (rq_occu = 0) && decide (0 < wq_occu))))
    || (ch.write_mode && (decide (wq_occu = 0) || (decide (0 < rq_occu) && decide (wq_occu < LOW))))

/-- The bank-slot reset applied on a mode switch: invalidate, clearing the
open row iff the slot's ready_time precedes current_time + tCAS. -/
def swapResetBank (T : Timing) (ct : Nat) (br : BankRequest) : BankRequest :=
  { br with valid := false
          , open_row := if br.ready_time < ct + T.tCAS then none else br.open_row }

/-- The queue-entry reopening applied on a mode switch. -/
def reopen (ct : Nat) (r : Request) : Request :=
  { r with scheduled := false, ready_time := ct }

/-- One iteration of the swap_write_mode bank loop. -/
def swapStep (T : Timing) (c : Channel) (i : Nat) : Channel :=
  if c.active_request = some i then c
  else
    match c.bank_request[i]? with
    | some br =>
      if br.valid then
        (setBr c i (swapResetBank T c.current_time br)).updateSlot br.fromWQ br.pkt
          (reopen c.current_time)
      else c
    | none => c

/-- DRAM_CHANNEL::swap_write_mode. -/
def swap_write_mode (T : Timing) (ch : Channel) : Channel :=
  if swapCond ch then
    let ch1 := (List.range ch.bank_request.length).foldl (swapStep T) ch
    let avail :=
      match ch1.active_request with
      | some a => (getBr ch1 a).ready_time + T.turnaround
      | none => ch1.current_time + T.turnaround
    { ch1 with dbus_cycle_available := avail, write_mode := !ch1.write_mode }
  else ch

/-- std::min_element as an index: the first index whose element no later
element strictly improves on, for comparator comp. -/
def minIdxBy (comp : α → α → Bool) (xs : List α) : Nat :=
  (List.range xs.length).foldl
    (fun best i =>
      match xs[i]?, xs[best]? with
      | some a, some b => if comp a b then i else best
      | _, _ => best)
    0

/-- The populate_dbus comparator over bank requests. -/
def dbusComp (lhs rhs : BankRequest) : Bool :=
  !rhs.valid || (lhs.valid && decide (lhs.ready_time < rhs.ready_time))

/-- Exactly one of the four row-buffer counters is bumped at bus
promotion, keyed by mode and hit. -/
def bumpStats (st : Stats) (wm hit : Bool) : Stats :=
  if hit then
    if wm then { st with WQ_ROW_BUFFER_HIT := st.WQ_ROW_BUFFER_HIT + 1 }
    else { st with RQ_ROW_BUFFER_HIT := st.RQ_ROW_BUFFER_HIT + 1 }
  else if wm then { st with WQ_ROW_BUFFER_MISS := st.WQ_ROW_BUFFER_MISS + 1 }
  else { st with RQ_ROW_BUFFER_MISS := st.RQ_ROW_BUFFER_MISS + 1 }

/-- DRAM_CHANNEL::populate_dbus. -/
def populate_dbus (T : Timing) (ch : Channel) : Channel × Nat :=
  let i := minIdxBy dbusComp ch.bank_request
  match ch.bank_request[i]? with
  | none => (ch, 0)
  | some br =>
    if br.valid && decide (br.ready_time ≤ ch.current_time) then
      if ch.active_request = none && decide (ch.dbus_cycle_available ≤ ch.current_time) then
        let ch1 := setBr ch i { br with ready_time := ch.current_time + T.dbus_return }
        ({ ch1 with active_request := some i
                  , stats := bumpStats ch1.stats ch1.write_mode br.row_buffer_hit }, 1)
      else
        let waited :=
          match ch.active_request with
          | some a => ((getBr ch a).ready_time - ch.current_time) / T.clock_period
          | none => (ch.dbus_cycle_available - ch.current_time) / T.clock_period
        ({ ch with stats :=
            { ch.stats with
                dbus_cycle_congested := ch.stats.dbus_cycle_congested + waited
              , dbus_count_congested := ch.stats.dbus_count_congested + 1 } }, 0)
    else (ch, 0)

/-- The schedule_packets comparator (next_schedule): non-candidates lose,
free-bank candidates beat busy-bank ones, then earliest ready_time. -/
def nextSchedule (ch : Channel) (lhs rhs : Option Request) : Bool :=
  match rhs with
  | none => true
  | some rr =>
    if rr.scheduled then true
    else
      match lhs with
      | none => false
      | some lr =>
        if lr.scheduled then false
        else
          let lidx := bank_request_index ch.am lr.address
          let ridx := bank_request_index ch.am rr.address
          let lready := !(getBr ch lidx).valid
          let rready := !(getBr ch ridx).valid
          if rready && lready then decide (lr.ready_time ≤ rr.ready_time) else lready

/-- DRAM_CHANNEL::schedule_packets. -/
def schedule_packets (T : Timing) (ch : Channel) : Channel × Nat :=
  let q := ch.getQ ch.write_mode
  let j := minIdxBy (nextSchedule ch) q
  match q[j]? with
  | some (some r) =>
    if r.ready_time ≤ ch.current_time then
      let row := ch.am.get_row r.address
      let idx := bank_request_index ch.am r.address
      let br := getBr ch idx
      if br.valid then (ch, 0)
      else
        let hit := decide (br.open_row = some row)
        let nbr : BankRequest :=
          ⟨true, hit, some row,
            ch.current_time + T.tCAS + (if hit then 0 else T.tRP + T.tRCD),
            j, ch.write_mode⟩
        let ch1 := setBr ch idx nbr
        let ch2 := ch1.setQ ch1.write_mode
          (q.set j (some { r with scheduled := true, ready_time := timeMax }))
        (ch2, 1)
    else (ch, 0)
  | _ => (ch, 0)

/-- Responses emitted by the warmup drain over a read queue: for each
occupied entry, one response per return sink, in queue order. -/
def drainResponses (rq : List (Option Request)) : List (Nat × Response) :=
  rq.foldr
    (fun e acc =>
      match e with
      | some r => r.to_return.map (fun s => (s, mkResponse r)) ++ acc
      | none => acc)
    []

/-- The warmup branch of DRAM_CHANNEL::operate: satisfy and reset every
RQ entry, discard every WQ entry. -/
def warmupDrain (ch : Channel) : Channel × List (Nat × Response) × Nat :=
  ({ ch with RQ := List.replicate ch.RQ.length none
           , WQ := List.replicate ch.WQ.length none },
   drainResponses ch.RQ,
   occupancy ch.RQ + occupancy ch.WQ)

/-- The unconditional tail of DRAM_CHANNEL::operate: the collision
passes, bus completion, mode switch, bus population and scheduling. -/
def tickSteps (T : Timing) (c : Channel) : Channel × List (Nat × Response) × Nat :=
  let ch1 := { c with WQ := check_write_collision c.am c.WQ }
  let rc := check_read_collision ch1.am ch1.WQ ch1.RQ
  let ch2 := { ch1 with RQ := rc.1 }
  let f := finish_dbus_request ch2
  let ch4 := swap_write_mode T f.1
  let p := populate_dbus T ch4
  let s := schedule_packets T p.1
  (s.1, rc.2 ++ f.2.1, f.2.2 + p.2 + s.2)

/-- DRAM_CHANNEL::operate: warmup shortcut, then (unconditionally) the
remaining steps of the tick. -/
def operate (T : Timing) (ch : Channel) : Channel × List (Nat × Response) × Nat :=
  let s0 := if ch.warmup then warmupDrain ch else (ch, [], 0)
  let t := tickSteps T s0.1
  (t.1, s0.2.1 ++ t.2.1, s0.2.2 + t.2.2)

/-- An upstream request packet as delivered to add_rq / add_wq. -/
structure InPacket where
  address : Nat
  v_address : Nat
  data : Nat
  pf_metadata : Nat
  instr_depend_on_me : List Nat
  response_requested : Bool
deriving Repr, DecidableEq

/-- packet_type's converting constructor: note the source initialises
v_address from req.address. -/
def packetOf (p : InPacket) : Packet :=
  ⟨p.address, p.address, p.data, p.pf_metadata, p.instr_depend_on_me, []⟩

/-- request_type's converting constructor: one packet sharing the block
address. -/
def requestOf (p : InPacket) : Request :=
  ⟨p.address, false, false, 0, [packetOf p]⟩

/-- First unoccupied queue index (std::find_if_not over has_value). -/
def firstNone : List (Option Request) → Option Nat
  | [] => none
  | none :: _ => some 0
  | some _ :: rest => (firstNone rest).map (· + 1)

/-- MEMORY_CONTROLLER::add_rq, restricted to the already-selected target
channel; sink names the upstream's returned queue. -/
def add_rq (ct : Nat) (sink : Nat) (p : InPacket) (ch : Channel) : Channel × Bool :=
  match firstNone ch.RQ with
  | some k =>
    let r0 := { requestOf p with forward_checked := false, ready_time := ct }
    let r1 :=
      if p.response_requested then
        { r0 with packets :=
            match r0.packets with
            | q :: rest => { q with to_return := [sink] } :: rest
            | [] => [] }
      else r0
    ({ ch with RQ := ch.RQ.set k (some r1) }, true)
  | none => (ch, false)

/-- MEMORY_CONTROLLER::add_wq, restricted to the target channel. -/
def add_wq (ct : Nat) (p : InPacket) (ch : Channel) : Channel × Bool :=
  match firstNone ch.WQ with
  | some k =>
    let r0 := { requestOf p with forward_checked := false, ready_time := ct }
    ({ ch with WQ := ch.WQ.set k (some r0) }, true)
  | none =>
    ({ ch with stats := { ch.stats with WQ_FULL := ch.stats.WQ_FULL + 1 } }, false)

/-- champsim::get_span_p as used by initiate_requests: admit a contiguous
prefix, stopping at the first packet that fails to admit; that packet and
everything after it remain queued upstream. -/
def drainUpstream (add : InPacket → Channel → Channel × Bool) :
    Channel → List InPacket → Channel × List InPacket
  | ch, [] => (ch, [])
  | ch, p :: ps =>
    match add p ch with
    | (ch1, true) => drainUpstream add ch1 ps
    | (_, false) => (ch, p :: ps)

/-- Canonical address assembly for the round-trip claim: field values laid
out LSB-upward as offset, column, bank, rank, channel, row. -/
def assembleAddress (am : AddressMapping) (off col bank rank chan row : Nat) : Nat :=
  off + 2 ^ am.offW * (col + 2 ^ am.colW * (bank + 2 ^ am.bankW *
    (rank + 2 ^ am.rankW * (chan + 2 ^ am.chanW * row))))

/-- Two queue slots hold colliding occupied entries. -/
def pairCollides (am : AddressMapping) : Option Request → Option Request → Bool
  | some a, some b => am.is_collision a.address b.address
  | _, _ => false

/-- Two queue slots hold colliding occupied entries that are both already
forward-checked. -/
def checkedPairCollides (am : AddressMapping) : Option Request → Option Request → Bool
  | some a, some b =>
    a.forward_checked && b.forward_checked && am.is_collision a.address b.address
  | _, _ => false

/-- No two distinct occupied entries of the queue share a block. -/
def noBlockDupB (am : AddressMapping) (q : List (Option Request)) : Bool :=
  !(anyIdx (fun i e => anyIdx (fun j e2 => decide (i ≠ j) && pairCollides am e e2) 0 q) 0 q)

/-- No two distinct occupied, already-forward-checked entries share a
block. -/
def checkedPairsOKB (am : AddressMapping) (q : List (Option Request)) : Bool :=
  !(anyIdx (fun i e => anyIdx (fun j e2 => decide (i ≠ j) && checkedPairCollides am e e2) 0 q)
    0 q)

/-- Some occupied entry of the queue collides with the address. -/
def collidesOccB (am : AddressMapping) (addr : Nat) (q : List (Option Request)) : Bool :=
  q.any (fun e => occCollides am addr e)

/-- No occupied RQ entry shares a block with any occupied WQ entry. -/
def noRWB (am : AddressMapping) (wq rq : List (Option Request)) : Bool :=
  rq.all (fun e =>
    match e with
    | some r => !(collidesOccB am r.address wq)
    | none => true)

/-- No already-forward-checked occupied RQ entry shares a block with any
occupied WQ entry. -/
def checkedRWOKB (am : AddressMapping) (wq rq : List (Option Request)) : Bool :=
  rq.all (fun e =>
    match e with
    | some r => !r.forward_checked || !(collidesOccB am r.address wq)
    | none => true)

/-- Count of scheduled occupied entries in a queue. -/
def countScheduled (q : List (Option Request)) : Nat :=
  q.countP (fun e =>
    match e with
    | some r => r.scheduled
    | none => false)

/-- Concrete address mapping for witnesses: 16-byte blocks, 2 columns,
2 banks, 2 ranks, 1 channel, 4 rows. -/
def amW : AddressMapping := ⟨4, 1, 1, 1, 0, 2⟩

/-- Concrete timing for witnesses. -/
def timW : Timing := ⟨1, 4, 4, 4, 8, 8⟩

/-- A one-packet read request for witnesses. -/
def mkReq (a : Nat) (fc : Bool) (deps sinks : List Nat) : Request :=
  ⟨a, fc, false, 0, [⟨a, a, 0, 0, deps, sinks⟩]⟩

/-- C1 failing input: two un-forward-checked RQ entries in the same block
(offset width 4) whose packets have different exact addresses. -/
def rqC1 : List (Option Request) :=
  [some (mkReq 0 false [1] [10]), some (mkReq 8 false [2] [20])]

/-- C2 and C5 counterexample channels and queues. -/
def chC2 : Channel :=
  { RQ := [], WQ := [none], bank_request := [defBankRequest], active_request := none
  , dbus_cycle_available := 0, write_mode := true, warmup := true, current_time := 0
  , am := amW, stats := defStats }

/-- Two occupied, already forward-checked WQ entries in the same block. -/
def wqC5 : List (Option Request) :=
  [some (mkReq 0 true [] []), some (mkReq 8 true [] [])]

/-- C7 counterexample: one ready unscheduled read, free banks, empty WQ of
size 8, read mode, no active bus transfer. -/
def chC7 : Channel :=
  { RQ := [some (mkReq 0 true [] [9])]
  , WQ := List.replicate 8 none
  , bank_request := List.replicate 4 defBankRequest
  , active_request := none, dbus_cycle_available := 0, write_mode := false
  , warmup := false, current_time := 0, am := amW, stats := defStats }

/-- The mode-switch condition, spelled as the claim states it. -/
def swapCondSpec (ch : Channel) : Prop :=
  (ch.write_mode = false ∧
    (ch.WQ.length * 7 / 8 ≤ occupancy ch.WQ ∨
      (occupancy ch.RQ = 0 ∧ 0 < occupancy ch.WQ))) ∨
  (ch.write_mode = true ∧
    (occupancy ch.WQ = 0 ∨
      (0 < occupancy ch.RQ ∧ occupancy ch.WQ < ch.WQ.length * 6 / 8)))

instance (ch : Channel) : Decidable (swapCondSpec ch) := by
  unfold swapCondSpec; infer_instance

/-- C3 witness channel: read mode, WQ occupancy 7 of 8 (at the high water
mark), one valid non-active bank request backed by a scheduled RQ entry. -/
def chC3 : Channel :=
  { RQ := [some ⟨0, true, true, timeMax, [⟨0, 0, 0, 0, [], []⟩]⟩]
  , WQ := [some (mkReq 32 false [] []), some (mkReq 32 false [] []),
           some (mkReq 32 false [] []), some (mkReq 32 false [] []),
           some (mkReq 32 false [] []), some (mkReq 32 false [] []),
           some (mkReq 32 false [] []), none]
  , bank_request := [⟨true, false, some 1, 0, 0, false⟩, defBankRequest]
  , active_request := none, dbus_cycle_available := 0, write_mode := false
  , warmup := false, current_time := 10, am := amW, stats := defStats }

/-- C4 witness channel: one ready unscheduled read, all banks free. -/
def chC4 : Channel :=
  { RQ := [some (mkReq 0 true [] [9])]
  , WQ := [none]
  , bank_request := List.replicate 4 defBankRequest
  , active_request := none, dbus_cycle_available := 0, write_mode := false
  , warmup := false, current_time := 0, am := amW, stats := defStats }

/-- C5 witness WQ: two un-forward-checked colliding writes and a free
slot. -/
def wqC5w : List (Option Request) :=
  [some (mkReq 0 false [] []), some (mkReq 4 false [] []), none]

/-- C5 witness RQ: one read colliding with the surviving write, one
checked read of a different block. -/
def rqC5w : List (Option Request) :=
  [some (mkReq 8 false [] [17]), some (mkReq 64 true [] [])]

/-- C6 witness WQ: one checked write with data 77 in the read's block. -/
def wqC6 : List (Option Request) :=
  [some ⟨4, true, false, 0, [⟨4, 4, 77, 0, [], []⟩]⟩]

/-- C6 witness RQ: one un-forward-checked read with one return sink. -/
def rqC6 : List (Option Request) :=
  [some (mkReq 0 false [5] [9])]

/-- C7 amended-claim witness channel: a ready valid bank request, idle
bus, read mode. -/
def chC7w : Channel :=
  { RQ := [], WQ := []
  , bank_request := [⟨true, true, some 0, 0, 0, false⟩]
  , active_request := none, dbus_cycle_available := 0, write_mode := false
  , warmup := false, current_time := 5, am := amW, stats := defStats }

/-- C9 witness packet. -/
def pktC9 : InPacket := ⟨4, 4, 7, 2, [1], true⟩

/-- C9 witness channel with full single-slot queues. -/
def chFullC9 : Channel :=
  { RQ := [some (mkReq 0 true [] [])], WQ := [some (mkReq 16 true [] [])]
  , bank_request := [defBankRequest]
  , active_request := none, dbus_cycle_available := 0, write_mode := false
  , warmup := false, current_time := 3, am := amW, stats := defStats }

/-- C9 witness channel with free single-slot queues. -/
def chAvailC9 : Channel :=
  { RQ := [none], WQ := [none]
  , bank_request := [defBankRequest]
  , active_request := none, dbus_cycle_available := 0, write_mode := false
  , warmup := false, current_time := 3, am := amW, stats := defStats }

theorem foldl_inv_range' {β : Type} (P : β → Prop) (f : β → Nat → β) :
    ∀ (m lo : Nat), (∀ b k, lo ≤ k → k < lo + m → P b → P (f b k)) →
      ∀ b, P b → P (List.foldl f b (List.range' lo m)) := by
  intro m
  induction m with
  | zero => intro lo _ b h; simpa using h
  | succ n ih =>
    intro lo step b h
    have hc : List.range' lo (n + 1) = lo :: List.range' (lo + 1) n := rfl
    rw [hc, List.foldl_cons]
    exact ih (lo + 1) (fun b' k hk1 hk2 hb => step b' k (by omega) (by omega) hb)
      (f b lo) (step b lo (Nat.le_refl _) (by omega) h)

theorem foldl_inv_range_idx {β : Type} (Q : β → Nat → Prop) (f : β → Nat → β) (N : Nat)
    (step : ∀ b k, k < N → Q b k → Q (f b k) (k + 1)) :
    ∀ (m k : Nat) (b : β), k + m ≤ N → Q b k →
      Q (List.foldl f b (List.range' k m)) (k + m) := by
  intro m
  induction m with
  | zero => intro k b _ h; simpa using h
  | succ n ih =>
    intro k b hkm h
    have hc : List.range' k (n + 1) = k :: List.range' (k + 1) n := rfl
    rw [hc, List.foldl_cons]
    have h1 : Q (f b k) (k + 1) := step b k (by omega) h
    have h2 := ih (k + 1) (f b k) (by omega) h1
    have he : k + (n + 1) = k + 1 + n := by omega
    rw [he]
    exact h2

/-- C10: for every address, the bank-state index get_rank * banks +
get_bank computed by bank_request_index is strictly below the length of
the channel's bank_request array, which the constructor sizes as
ranks * banks; every bank_request access through that index is in
bounds. -/
theorem c10_bank_request_index_in_bounds (am : AddressMapping)
    (addr rq_size wq_size : Nat) :
    bank_request_index am addr < (mkChannel am rq_size wq_size).bank_request.length := by
  have h1 : am.get_rank addr < 2 ^ am.rankW :=
    Nat.mod_lt _ (Nat.two_pow_pos _)
  have h2 : am.get_bank addr < 2 ^ am.bankW :=
    Nat.mod_lt _ (Nat.two_pow_pos _)
  have key : am.get_rank addr * 2 ^ am.bankW + am.get_bank addr
      < 2 ^ am.rankW * 2 ^ am.bankW := by
    have step1 : am.get_rank addr * 2 ^ am.bankW + am.get_bank addr
        < (am.get_rank addr + 1) * 2 ^ am.bankW := by
      have := Nat.add_lt_add_left h2 (am.get_rank addr * 2 ^ am.bankW)
      calc am.get_rank addr * 2 ^ am.bankW + am.get_bank addr
          < am.get_rank addr * 2 ^ am.bankW + 2 ^ am.bankW := this
        _ = (am.get_rank addr + 1) * 2 ^ am.bankW := by ring
    have step2 : (am.get_rank addr + 1) * 2 ^ am.bankW ≤ 2 ^ am.rankW * 2 ^ am.bankW :=
      Nat.mul_le_mul_right _ (Nat.succ_le_of_lt h1)
    omega
  simpa [mkChannel, bank_request_index, AddressMapping.ranks, AddressMapping.banks,
    List.length_replicate] using key

/-- C1: evaluating the repaired source's check_read_collision at two
un-forward-checked RQ entries of the same block whose packets have
different exact addresses: the second entry's packet list is unchanged
(the first entry's packet, its dependency and its return sink are
dropped), and the first slot is reset — the merge never appends packets
with no exact-address match, contrary to the claim. -/
theorem c1_merge_drops_unmatched_packet :
    check_read_collision amW [] rqC1 =
      ([none, some ⟨8, true, false, 0, [⟨8, 8, 0, 0, [2], [20]⟩]⟩], []) := by
  rfl

/-- C2 counterexample: a warmup channel in write mode with empty queues;
operate runs the mode-switch step anyway (write mode with empty WQ flips
the mode), so the remaining steps of the tick are not skipped. -/
theorem c2_counterexample :
    chC2.warmup = true ∧ chC2.write_mode = true ∧
      (operate timW chC2).1.write_mode = false :=
  ⟨rfl, rfl, rfl⟩

/-- C5 counterexample: two occupied WQ entries of the same block that are
both already forward-checked survive check_write_collision unchanged, so
the unconditional postcondition fails. -/
theorem c5_counterexample :
    check_write_collision amW wqC5 = wqC5 ∧
      wqC5[0]? = some (some (mkReq 0 true [] [])) ∧
      wqC5[1]? = some (some (mkReq 8 true [] [])) ∧
      amW.is_collision 0 8 = true ∧
      noBlockDupB amW (check_write_collision amW wqC5) = false := by
  refine ⟨by rfl, by rfl, by rfl, by rfl, by rfl⟩

/-- C7 counterexample: a tick in which exactly one entry transitions from
unscheduled to scheduled while all four row-buffer counters are
unchanged — scheduling events do not increment the counters (bus
promotion in populate_dbus does). -/
theorem c7_counterexample :
    countScheduled chC7.RQ = 0 ∧
      countScheduled (operate timW chC7).1.RQ = 1 ∧
      (operate timW chC7).1.stats = chC7.stats := by
  refine ⟨by rfl, by rfl, by rfl⟩

theorem extract_mid (x r w : Nat) (hx : x < 2 ^ w) :
    (x + 2 ^ w * r) % 2 ^ w = x ∧ (x + 2 ^ w * r) / 2 ^ w = r := by
  constructor
  · rw [Nat.add_mul_mod_self_left, Nat.mod_eq_of_lt hx]
  · rw [Nat.add_mul_div_left _ _ (Nat.two_pow_pos w), Nat.div_eq_of_lt hx, Nat.zero_add]

theorem am_roundtrip (am : AddressMapping) (off col bank rank chan row : Nat)
    (h1 : off < 2 ^ am.offW) (h2 : col < 2 ^ am.colW) (h3 : bank < 2 ^ am.bankW)
    (h4 : rank < 2 ^ am.rankW) (h5 : chan < 2 ^ am.chanW) (h6 : row < 2 ^ am.rowW) :
    am.get_offset (assembleAddress am off col bank rank chan row) = off ∧
    am.get_column (assembleAddress am off col bank rank chan row) = col ∧
    am.get_bank (assembleAddress am off col bank rank chan row) = bank ∧
    am.get_rank (assembleAddress am off col bank rank chan row) = rank ∧
    am.get_channel (assembleAddress am off col bank rank chan row) = chan ∧
    am.get_row (assembleAddress am off col bank rank chan row) = row := by
  set r5 := chan + 2 ^ am.chanW * row with hr5
  set r4 := rank + 2 ^ am.rankW * r5 with hr4
  set r3 := bank + 2 ^ am.bankW * r4 with hr3
  set r2 := col + 2 ^ am.colW * r3 with hr2
  have ha : assembleAddress am off col bank rank chan row = off + 2 ^ am.offW * r2 := rfl
  have d1 := extract_mid off r2 am.offW h1
  have d2 := extract_mid col r3 am.colW h2
  have d3 := extract_mid bank r4 am.bankW h3
  have d4 := extract_mid rank r5 am.rankW h4
  have d5 := extract_mid chan row am.chanW h5
  have e1 : (assembleAddress am off col bank rank chan row) / 2 ^ am.offW = r2 := by
    rw [ha]; exact d1.2
  have e2 : (assembleAddress am off col bank rank chan row) / 2 ^ (am.offW + am.colW) = r3 := by
    rw [pow_add, ← Nat.div_div_eq_div_mul, e1]; exact d2.2
  have e3 : (assembleAddress am off col bank rank chan row)
      / 2 ^ (am.offW + am.colW + am.bankW) = r4 := by
    rw [pow_add, ← Nat.div_div_eq_div_mul, e2]; exact d3.2
  have e4 : (assembleAddress am off col bank rank chan row)
      / 2 ^ (am.offW + am.colW + am.bankW + am.rankW) = r5 := by
    rw [pow_add, ← Nat.div_div_eq_div_mul, e3]; exact d4.2
  have e5 : (assembleAddress am off col bank rank chan row)
      / 2 ^ (am.offW + am.colW + am.bankW + am.rankW + am.chanW) = row := by
    rw [pow_add, ← Nat.div_div_eq_div_mul, e4]; exact d5.2
  refine ⟨?_, ?_, ?_, ?_, ?_, ?_⟩
  · rw [AddressMapping.get_offset, ha]; exact d1.1
  · rw [AddressMapping.get_column, e1]; exact d2.1
  · rw [AddressMapping.get_bank, e2]; exact d3.1
  · rw [AddressMapping.get_rank, e3]; exact d4.1
  · rw [AddressMapping.get_channel, e4]; exact d5.1
  · rw [AddressMapping.get_row, e5]; exact Nat.mod_eq_of_lt h6

/-- C8: for power-of-two configured counts, composing the extractors over
an address canonically assembled from in-range field values (LSB-upward
offset, column, bank, rank, channel, row) returns those same values. -/
theorem c8_address_roundtrip (cw ps chans banks cols ranks rows q p c bk rk ch rw2 : Nat)
    (hcw : cw = 2 ^ q) (hps : ps = 2 ^ p) (hcols : cols = 2 ^ c) (hpc : p ≤ c)
    (hbanks : banks = 2 ^ bk) (hranks : ranks = 2 ^ rk) (hchans : chans = 2 ^ ch)
    (hrows : rows = 2 ^ rw2)
    (off col bank rank chan row : Nat)
    (ho : off < cw * ps) (hc : col < cols / ps) (hb : bank < banks) (hr : rank < ranks)
    (hch : chan < chans) (hrow : row < rows) :
    (make_slicer cw ps chans banks cols ranks rows).get_offset
        (assembleAddress (make_slicer cw ps chans banks cols ranks rows)
          off col bank rank chan row) = off ∧
    (make_slicer cw ps chans banks cols ranks rows).get_column
        (assembleAddress (make_slicer cw ps chans banks cols ranks rows)
          off col bank rank chan row) = col ∧
    (make_slicer cw ps chans banks cols ranks rows).get_bank
        (assembleAddress (make_slicer cw ps chans banks cols ranks rows)
          off col bank rank chan row) = bank ∧
    (make_slicer cw ps chans banks cols ranks rows).get_rank
        (assembleAddress (make_slicer cw ps chans banks cols ranks rows)
          off col bank rank chan row) = rank ∧
    (make_slicer cw ps chans banks cols ranks rows).get_channel
        (assembleAddress (make_slicer cw ps chans banks cols ranks rows)
          off col bank rank chan row) = chan ∧
    (make_slicer cw ps chans banks cols ranks rows).get_row
        (assembleAddress (make_slicer cw ps chans banks cols ranks rows)
          off col bank rank chan row) = row := by
  have e1 : cw * ps = 2 ^ (q + p) := by rw [hcw, hps, pow_add]
  have e2 : cols / ps = 2 ^ (c - p) := by
    rw [hcols, hps, Nat.pow_div hpc (by norm_num)]
  have ham : make_slicer cw ps chans banks cols ranks rows =
      ⟨q + p, c - p, bk, rk, ch, rw2⟩ := by
    rw [make_slicer, e1, e2, hbanks, hranks, hchans, hrows]
    simp [Nat.log2_two_pow]
  rw [ham]
  exact am_roundtrip _ off col bank rank chan row
    (e1 ▸ ho) (e2 ▸ hc) (hbanks ▸ hb) (hranks ▸ hr) (hchans ▸ hch) (hrows ▸ hrow)

/-- C8 witness: a concrete power-of-two configuration and concrete field
values round-tripping through the extractors. -/
theorem c8_witness :
    (make_slicer 2 8 2 4 64 2 16).get_offset
        (assembleAddress (make_slicer 2 8 2 4 64 2 16) 5 3 2 1 1 9) = 5 ∧
    (make_slicer 2 8 2 4 64 2 16).get_column
        (assembleAddress (make_slicer 2 8 2 4 64 2 16) 5 3 2 1 1 9) = 3 ∧
    (make_slicer 2 8 2 4 64 2 16).get_bank
        (assembleAddress (make_slicer 2 8 2 4 64 2 16) 5 3 2 1 1 9) = 2 ∧
    (make_slicer 2 8 2 4 64 2 16).get_rank
        (assembleAddress (make_slicer 2 8 2 4 64 2 16) 5 3 2 1 1 9) = 1 ∧
    (make_slicer 2 8 2 4 64 2 16).get_channel
        (assembleAddress (make_slicer 2 8 2 4 64 2 16) 5 3 2 1 1 9) = 1 ∧
    (make_slicer 2 8 2 4 64 2 16).get_row
        (assembleAddress (make_slicer 2 8 2 4 64 2 16) 5 3 2 1 1 9) = 9 :=
  c8_address_roundtrip 2 8 2 4 64 2 16 1 3 6 2 1 1 4
    (by decide) (by decide) (by decide) (by decide) (by decide) (by decide) (by decide)
    (by decide) 5 3 2 1 1 9
    (by decide) (by decide) (by decide) (by decide) (by decide) (by decide)

theorem firstNone_eq_none_iff (q : List (Option Request)) :
    firstNone q = none ↔ ∀ e ∈ q, e.isSome = true := by
  induction q with
  | nil => simp [firstNone]
  | cons e rest ih =>
    cases e with
    | none => simp [firstNone]
    | some r =>
      simp only [firstNone, Option.map_eq_none', ih, List.mem_cons]
      constructor
      · intro h e he
        cases he with
        | inl h1 => simp [h1]
        | inr h2 => exact h e h2
      · intro h e he; exact h e (Or.inr he)

/-- C9: with no empty slot in the target queue, add_rq and add_wq return
false leaving the channel unchanged except that add_wq increments WQ_FULL
(add_rq does not); with a first empty slot they return true after writing
the converted request there with ready_time = current_time and
forward_checked = false; and a failed admission leaves the upstream
packet (and everything behind it) queued. -/
theorem c9_admission (ct sink : Nat) (p : InPacket) (ch : Channel) :
    ((∀ e ∈ ch.RQ, e.isSome = true) → add_rq ct sink p ch = (ch, false)) ∧
    ((∀ e ∈ ch.WQ, e.isSome = true) →
      add_wq ct p ch =
        ({ ch with stats := { ch.stats with WQ_FULL := ch.stats.WQ_FULL + 1 } }, false)) ∧
    (∀ k, firstNone ch.RQ = some k →
      add_rq ct sink p ch =
        ({ ch with RQ := ch.RQ.set k (some
            ⟨p.address, false, false, ct,
              [⟨p.address, p.address, p.data, p.pf_metadata, p.instr_depend_on_me,
                if p.response_requested then [sink] else []⟩]⟩) }, true)) ∧
    (∀ k, firstNone ch.WQ = some k →
      add_wq ct p ch =
        ({ ch with WQ := ch.WQ.set k (some
            ⟨p.address, false, false, ct,
              [⟨p.address, p.address, p.data, p.pf_metadata, p.instr_depend_on_me,
                []⟩]⟩) }, true)) ∧
    ((∀ e ∈ ch.RQ, e.isSome = true) → ∀ ps,
      drainUpstream (add_rq ct sink) ch (p :: ps) = (ch, p :: ps)) := by
  have hrqFalse : (∀ e ∈ ch.RQ, e.isSome = true) → add_rq ct sink p ch = (ch, false) := by
    intro h
    have hn : firstNone ch.RQ = none := (firstNone_eq_none_iff ch.RQ).mpr h
    simp [add_rq, hn]
  refine ⟨hrqFalse, ?_, ?_, ?_, ?_⟩
  · intro h
    have hn : firstNone ch.WQ = none := (firstNone_eq_none_iff ch.WQ).mpr h
    simp [add_wq, hn]
  · intro k hk
    cases hresp : p.response_requested with
    | true => simp [add_rq, hk, requestOf, packetOf, hresp]
    | false => simp [add_rq, hk, requestOf, packetOf, hresp]
  · intro k hk
    simp [add_wq, hk, requestOf, packetOf]
  · intro h ps
    have := hrqFalse h
    simp [drainUpstream, this]

/-- C9 witness: concrete full and non-full single-slot channels. -/
theorem c9_witness :
    add_rq 3 11 pktC9 chFullC9 = (chFullC9, false) ∧
    add_wq 3 pktC9 chFullC9 =
      ({ chFullC9 with stats := { chFullC9.stats with WQ_FULL := chFullC9.stats.WQ_FULL + 1 } },
        false) ∧
    add_rq 3 11 pktC9 chAvailC9 =
      ({ chAvailC9 with RQ := chAvailC9.RQ.set 0 (some
          ⟨pktC9.address, false, false, 3,
            [⟨pktC9.address, pktC9.address, pktC9.data, pktC9.pf_metadata,
              pktC9.instr_depend_on_me,
              if pktC9.response_requested then [11] else []⟩]⟩) }, true) ∧
    drainUpstream (add_rq 3 11) chFullC9 [pktC9] = (chFullC9, [pktC9]) :=
  ⟨(c9_admission 3 11 pktC9 chFullC9).1 (by decide),
   (c9_admission 3 11 pktC9 chFullC9).2.1 (by decide),
   (c9_admission 3 11 pktC9 chAvailC9).2.2.1 0 (by decide),
   (c9_admission 3 11 pktC9 chFullC9).2.2.2.2 (by decide) []⟩
theorem setBr_write_mode (ch : Channel) (i : Nat) (br : BankRequest) :
    (setBr ch i br).write_mode = ch.write_mode := rfl

theorem setBr_bank (ch : Channel) (i : Nat) (br : BankRequest) :
    (setBr ch i br).bank_request = ch.bank_request.set i br := rfl

theorem setQ_bank (ch : Channel) (b : Bool) (q : List (Option Request)) :
    (ch.setQ b q).bank_request = ch.bank_request := by cases b <;> rfl

theorem getQ_setQ (ch : Channel) (b : Bool) (q : List (Option Request)) :
    (ch.setQ b q).getQ b = q := by cases b <;> rfl

/-- C4: when schedule_packets selects an occupied entry whose ready_time
has arrived and whose target bank is free, it installs the bank request
with valid = true, row_buffer_hit iff the open row equals the request's
row, open_row = the request's row, ready_time = current_time + tCAS
(+ tRP + tRCD on a miss), and marks the queue entry scheduled with
ready_time set to the maximal time value. -/
theorem c4_schedule_install (T : Timing) (ch : Channel) (r : Request)
    (hj : (ch.getQ ch.write_mode)[minIdxBy (nextSchedule ch) (ch.getQ ch.write_mode)]? =
      some (some r))
    (hrt : r.ready_time ≤ ch.current_time)
    (hfree : (getBr ch (bank_request_index ch.am r.address)).valid = false)
    (hidx : bank_request_index ch.am r.address < ch.bank_request.length) :
    (schedule_packets T ch).1.bank_request[bank_request_index ch.am r.address]? =
      some ⟨true,
            decide ((getBr ch (bank_request_index ch.am r.address)).open_row =
              some (ch.am.get_row r.address)),
            some (ch.am.get_row r.address),
            ch.current_time + T.tCAS +
              (if decide ((getBr ch (bank_request_index ch.am r.address)).open_row =
                  some (ch.am.get_row r.address)) = true then 0 else T.tRP + T.tRCD),
            minIdxBy (nextSchedule ch) (ch.getQ ch.write_mode), ch.write_mode⟩ ∧
    ((schedule_packets T ch).1.getQ ch.write_mode)[minIdxBy (nextSchedule ch)
        (ch.getQ ch.write_mode)]? =
      some (some { r with scheduled := true, ready_time := timeMax }) ∧
    (schedule_packets T ch).2 = 1 := by
  have hjlt : minIdxBy (nextSchedule ch) (ch.getQ ch.write_mode) <
      (ch.getQ ch.write_mode).length := (List.getElem?_eq_some.mp hj).1
  simp only [schedule_packets]
  rw [hj]
  simp only [hfree, Bool.false_eq_true, if_false, if_pos hrt]
  refine ⟨?_, ?_, trivial⟩
  · rw [setQ_bank, setBr_bank, List.getElem?_set_self hidx]
  · rw [setBr_write_mode, getQ_setQ, List.getElem?_set_self hjlt]

/-- C4 witness: a concrete ready read on a free bank gets installed with a
row-buffer miss latency and the queue entry is parked at the maximal
time. -/
theorem c4_witness :
    (schedule_packets timW chC4).1.bank_request[0]? =
      some ⟨true, false, some 0, 12, 0, false⟩ ∧
    ((schedule_packets timW chC4).1.getQ false)[0]? =
      some (some ⟨0, true, true, timeMax, [⟨0, 0, 0, 0, [], [9]⟩]⟩) ∧
    (schedule_packets timW chC4).2 = 1 :=
  c4_schedule_install timW chC4 (mkReq 0 true [] [9])
    (by decide) (by decide) (by decide) (by decide)
theorem setQ_stats (ch : Channel) (b : Bool) (q : List (Option Request)) :
    (ch.setQ b q).stats = ch.stats := by cases b <;> rfl

theorem setBr_stats (ch : Channel) (i : Nat) (br : BankRequest) :
    (setBr ch i br).stats = ch.stats := rfl

/-- C7 amended: scheduling events never touch the statistics counters;
it is the bus-promotion event in populate_dbus that increments exactly
one of the four row-buffer counters, choosing the WQ pair iff the channel
is in write mode and the HIT member iff the promoted access was a
row-buffer hit. -/
theorem c7_row_buffer_accounting (T : Timing) (ch : Channel) :
    (schedule_packets T ch).1.stats = ch.stats ∧
    (∀ br, ch.bank_request[minIdxBy dbusComp ch.bank_request]? = some br →
      br.valid = true → br.ready_time ≤ ch.current_time →
      ch.active_request = none → ch.dbus_cycle_available ≤ ch.current_time →
      (populate_dbus T ch).1.stats = bumpStats ch.stats ch.write_mode br.row_buffer_hit) := by
  constructor
  · simp only [schedule_packets]
    cases hq : (ch.getQ ch.write_mode)[minIdxBy (nextSchedule ch) (ch.getQ ch.write_mode)]? with
    | none => rfl
    | some e =>
      cases e with
      | none => rfl
      | some r =>
        dsimp only
        by_cases hrt : r.ready_time ≤ ch.current_time
        · rw [if_pos hrt]
          cases hv : (getBr ch (bank_request_index ch.am r.address)).valid
          · simp only [Bool.false_eq_true, if_false, setQ_stats, setBr_stats]
          · simp only [if_true]
        · rw [if_neg hrt]
  · intro br hbr hv hrt hact hav
    simp only [populate_dbus]
    rw [hbr]
    dsimp only
    have hcond : (br.valid && decide (br.ready_time ≤ ch.current_time)) = true := by
      rw [hv]; simpa using hrt
    rw [if_pos hcond]
    have hcond2 : (decide (ch.active_request = none) &&
        decide (ch.dbus_cycle_available ≤ ch.current_time)) = true := by
      simp [hact, hav]
    rw [if_pos hcond2]
    simp only [setBr_stats]
    rfl

/-- C7 amended-claim witness: a concrete promotion of a row-buffer hit in
read mode bumps RQ_ROW_BUFFER_HIT, and a concrete schedule_packets call
leaves the counters alone. -/
theorem c7_witness :
    (populate_dbus timW chC7w).1.stats = bumpStats chC7w.stats chC7w.write_mode true ∧
    (schedule_packets timW chC7w).1.stats = chC7w.stats :=
  ⟨(c7_row_buffer_accounting timW chC7w).2 ⟨true, true, some 0, 0, 0, false⟩
      (by decide) (by decide) (by decide) (by decide) (by decide),
   (c7_row_buffer_accounting timW chC7w).1⟩
theorem allNone_set_none (q : List (Option Request)) (i : Nat)
    (h : ∀ e ∈ q, e = none) : ∀ e ∈ q.set i none, e = none := by
  intro e he
  rcases List.mem_or_eq_of_mem_set he with h1 | h1
  · exact h e h1
  · exact h1

theorem updateOptSlot_allNone (q : List (Option Request)) (i : Nat)
    (f : Request → Request) (h : ∀ e ∈ q, e = none) : updateOptSlot q i f = q := by
  unfold updateOptSlot
  cases hq : q[i]? with
  | none => rfl
  | some e =>
    have he : e = none := h e (List.getElem?_mem hq)
    subst he
    rfl

theorem wccStep_allNone (am : AddressMapping) (wq : List (Option Request)) (i : Nat)
    (h : ∀ e ∈ wq, e = none) : wccStep am wq i = wq := by
  unfold wccStep
  cases hq : wq[i]? with
  | none => rfl
  | some e =>
    have he : e = none := h e (List.getElem?_mem hq)
    subst he
    rfl

theorem cwc_allNone (am : AddressMapping) (wq : List (Option Request))
    (h : ∀ e ∈ wq, e = none) : check_write_collision am wq = wq := by
  unfold check_write_collision
  suffices hs : ∀ l : List Nat, l.foldl (wccStep am) wq = wq from hs _
  intro l
  induction l with
  | nil => rfl
  | cons a t ih => rw [List.foldl_cons, wccStep_allNone am wq a h]; exact ih

theorem rccStep_allNone (am : AddressMapping) (wq : List (Option Request))
    (st : List (Option Request) × List (Nat × Response)) (i : Nat)
    (h : ∀ e ∈ st.1, e = none) : rccStep am wq st i = st := by
  unfold rccStep
  cases hq : st.1[i]? with
  | none => rfl
  | some e =>
    have he : e = none := h e (List.getElem?_mem hq)
    subst he
    rfl

theorem crc_allNone (am : AddressMapping) (wq rq : List (Option Request))
    (h : ∀ e ∈ rq, e = none) : check_read_collision am wq rq = (rq, []) := by
  unfold check_read_collision
  suffices hs : ∀ l : List Nat, l.foldl (rccStep am wq) (rq, []) = (rq, []) from hs _
  intro l
  induction l with
  | nil => rfl
  | cons a t ih => rw [List.foldl_cons, rccStep_allNone am wq (rq, []) a h]; exact ih

theorem finish_queues_allNone (ch : Channel)
    (hR : ∀ e ∈ ch.RQ, e = none) (hW : ∀ e ∈ ch.WQ, e = none) :
    (∀ e ∈ (finish_dbus_request ch).1.RQ, e = none) ∧
    (∀ e ∈ (finish_dbus_request ch).1.WQ, e = none) := by
  unfold finish_dbus_request
  cases ch.active_request with
  | none => exact ⟨hR, hW⟩
  | some a =>
    dsimp only
    by_cases hrt : (getBr ch a).ready_time ≤ ch.current_time
    · rw [if_pos hrt]
      cases hfw : (getBr ch a).fromWQ
      · dsimp [Channel.resetSlot, Channel.setQ, Channel.getQ, setBr, hfw]
        exact ⟨allNone_set_none _ _ hR, hW⟩
      · dsimp [Channel.resetSlot, Channel.setQ, Channel.getQ, setBr, hfw]
        exact ⟨hR, allNone_set_none _ _ hW⟩
    · rw [if_neg hrt]
      exact ⟨hR, hW⟩

theorem swapStep_queues (T : Timing) (c : Channel) (k : Nat)
    (hR : ∀ e ∈ c.RQ, e = none) (hW : ∀ e ∈ c.WQ, e = none) :
    (swapStep T c k).RQ = c.RQ ∧ (swapStep T c k).WQ = c.WQ := by
  unfold swapStep
  by_cases hact : c.active_request = some k
  · rw [if_pos hact]; exact ⟨rfl, rfl⟩
  · rw [if_neg hact]
    cases hb : c.bank_request[k]? with
    | none => exact ⟨rfl, rfl⟩
    | some br =>
      dsimp only
      cases hv : br.valid
      · simp only [Bool.false_eq_true, if_false]
        exact ⟨trivial, trivial⟩
      · simp only [if_true]
        cases hfw : br.fromWQ
        · dsimp [Channel.updateSlot, Channel.setQ, Channel.getQ, setBr, hfw]
          rw [updateOptSlot_allNone _ _ _ hR]
          exact ⟨rfl, rfl⟩
        · dsimp [Channel.updateSlot, Channel.setQ, Channel.getQ, setBr, hfw]
          rw [updateOptSlot_allNone _ _ _ hW]
          exact ⟨rfl, rfl⟩

theorem swap_queues (T : Timing) (ch : Channel)
    (hR : ∀ e ∈ ch.RQ, e = none) (hW : ∀ e ∈ ch.WQ, e = none) :
    (swap_write_mode T ch).RQ = ch.RQ ∧ (swap_write_mode T ch).WQ = ch.WQ := by
  have key : ∀ (l : List Nat) (c : Channel), (∀ e ∈ c.RQ, e = none) →
      (∀ e ∈ c.WQ, e = none) →
      (l.foldl (swapStep T) c).RQ = c.RQ ∧ (l.foldl (swapStep T) c).WQ = c.WQ := by
    intro l
    induction l with
    | nil => intro c h1 h2; exact ⟨rfl, rfl⟩
    | cons a t ih =>
      intro c h1 h2
      rw [List.foldl_cons]
      have hs := swapStep_queues T c a h1 h2
      have h1a : ∀ e ∈ (swapStep T c a).RQ, e = none := by rw [hs.1]; exact h1
      have h2a : ∀ e ∈ (swapStep T c a).WQ, e = none := by rw [hs.2]; exact h2
      have ht := ih (swapStep T c a) h1a h2a
      exact ⟨ht.1.trans hs.1, ht.2.trans hs.2⟩
  unfold swap_write_mode
  by_cases hc : swapCond ch = true
  · rw [if_pos hc]
    dsimp only
    exact key _ ch hR hW
  · rw [if_neg hc]; exact ⟨rfl, rfl⟩

theorem populate_queues (T : Timing) (ch : Channel) :
    (populate_dbus T ch).1.RQ = ch.RQ ∧ (populate_dbus T ch).1.WQ = ch.WQ := by
  unfold populate_dbus
  constructor <;> (dsimp only) <;> (repeat' split) <;> rfl

theorem schedule_allNone_noop (T : Timing) (ch : Channel)
    (h : ∀ e ∈ ch.getQ ch.write_mode, e = none) : schedule_packets T ch = (ch, 0) := by
  unfold schedule_packets
  dsimp only
  cases hq : (ch.getQ ch.write_mode)[minIdxBy (nextSchedule ch) (ch.getQ ch.write_mode)]? with
  | none => rfl
  | some e =>
    have he : e = none := h e (List.getElem?_mem hq)
    subst he
    rfl

theorem tickSteps_allNone (T : Timing) (c : Channel)
    (hR : ∀ e ∈ c.RQ, e = none) (hW : ∀ e ∈ c.WQ, e = none) :
    (∀ e ∈ (tickSteps T c).1.RQ, e = none) ∧
    (∀ e ∈ (tickSteps T c).1.WQ, e = none) := by
  unfold tickSteps
  dsimp only
  rw [cwc_allNone c.am c.WQ hW]
  rw [crc_allNone c.am c.WQ c.RQ hR]
  dsimp only
  have hfq := finish_queues_allNone { c with WQ := c.WQ, RQ := c.RQ } hR hW
  obtain ⟨hR4, hW4⟩ := hfq
  have hsq := swap_queues T (finish_dbus_request { c with WQ := c.WQ, RQ := c.RQ }).1 hR4 hW4
  have hR5 : ∀ e ∈ (swap_write_mode T
      (finish_dbus_request { c with WQ := c.WQ, RQ := c.RQ }).1).RQ, e = none := by
    rw [hsq.1]; exact hR4
  have hW5 : ∀ e ∈ (swap_write_mode T
      (finish_dbus_request { c with WQ := c.WQ, RQ := c.RQ }).1).WQ, e = none := by
    rw [hsq.2]; exact hW4
  have hpq := populate_queues T (swap_write_mode T
      (finish_dbus_request { c with WQ := c.WQ, RQ := c.RQ }).1)
  have hR6 : ∀ e ∈ (populate_dbus T (swap_write_mode T
      (finish_dbus_request { c with WQ := c.WQ, RQ := c.RQ }).1)).1.RQ, e = none := by
    rw [hpq.1]; exact hR5
  have hW6 : ∀ e ∈ (populate_dbus T (swap_write_mode T
      (finish_dbus_request { c with WQ := c.WQ, RQ := c.RQ }).1)).1.WQ, e = none := by
    rw [hpq.2]; exact hW5
  have hq : ∀ e ∈ ((populate_dbus T (swap_write_mode T
      (finish_dbus_request { c with WQ := c.WQ, RQ := c.RQ }).1)).1.getQ
        (populate_dbus T (swap_write_mode T
          (finish_dbus_request { c with WQ := c.WQ, RQ := c.RQ }).1)).1.write_mode),
      e = none := by
    cases hwm : (populate_dbus T (swap_write_mode T
        (finish_dbus_request { c with WQ := c.WQ, RQ := c.RQ }).1)).1.write_mode
    · dsimp [Channel.getQ]; exact hR6
    · dsimp [Channel.getQ]; exact hW6
  rw [schedule_allNone_noop T _ hq]
  exact ⟨hR6, hW6⟩

/-- C2 amended: during a warmup tick, every occupied RQ entry has a
response pushed to each of its return sinks and its slot reset, and every
WQ entry is discarded; the remaining steps of the tick still run, but on
the emptied queues, so the queues are empty when operate returns. -/
theorem c2_warmup_drain (T : Timing) (ch : Channel) (h : ch.warmup = true) :
    (∀ e ∈ (operate T ch).1.RQ, e = none) ∧
    (∀ e ∈ (operate T ch).1.WQ, e = none) ∧
    ∃ rest, (operate T ch).2.1 = drainResponses ch.RQ ++ rest := by
  unfold operate
  rw [h]
  dsimp only [if_true]
  have hR0 : ∀ e ∈ (warmupDrain ch).1.RQ, e = none := by
    dsimp [warmupDrain]
    intro e he
    exact (List.eq_of_mem_replicate he)
  have hW0 : ∀ e ∈ (warmupDrain ch).1.WQ, e = none := by
    dsimp [warmupDrain]
    intro e he
    exact (List.eq_of_mem_replicate he)
  have ht := tickSteps_allNone T (warmupDrain ch).1 hR0 hW0
  exact ⟨ht.1, ht.2, ⟨(tickSteps T (warmupDrain ch).1).2.1, rfl⟩⟩

/-- C2 amended-claim witness at the concrete warmup channel. -/
theorem c2_witness :
    (∀ e ∈ (operate timW chC2).1.RQ, e = none) ∧
    (∀ e ∈ (operate timW chC2).1.WQ, e = none) ∧
    ∃ rest, (operate timW chC2).2.1 = drainResponses chC2.RQ ++ rest :=
  c2_warmup_drain timW chC2 rfl
theorem is_collision_true_iff (am : AddressMapping) (a b : Nat) :
    am.is_collision a b = true ↔ a - am.get_offset a = b - am.get_offset b := by
  simp [AddressMapping.is_collision]

theorem is_collision_false_iff (am : AddressMapping) (a b : Nat) :
    am.is_collision a b = false ↔ ¬(a - am.get_offset a = b - am.get_offset b) := by
  simp [AddressMapping.is_collision]

theorem findCollision_eq_none_iff (am : AddressMapping) (addr : Nat)
    (wq : List (Option Request)) :
    findCollision am addr wq = none ↔ ∀ e ∈ wq, occCollides am addr e = false := by
  induction wq with
  | nil => simp [findCollision]
  | cons e rest ih =>
    cases e with
    | none => simp [findCollision, ih, occCollides]
    | some r =>
      by_cases hc : am.is_collision r.address addr = true
      · simp [findCollision, hc, occCollides]
      · have hc2 : am.is_collision r.address addr = false := by
          cases h2 : am.is_collision r.address addr
          · rfl
          · exact absurd h2 hc
        simp [findCollision, hc2, ih, occCollides]

theorem findCollision_mem (am : AddressMapping) (addr : Nat)
    (wq : List (Option Request)) (w : Request)
    (h : findCollision am addr wq = some w) :
    (some w) ∈ wq ∧ am.is_collision w.address addr = true := by
  induction wq with
  | nil => simp [findCollision] at h
  | cons e rest ih =>
    cases e with
    | none =>
      have := ih (by simpa [findCollision] using h)
      exact ⟨List.mem_cons_of_mem _ this.1, this.2⟩
    | some r =>
      by_cases hc : am.is_collision r.address addr = true
      · have hw : r = w := by simpa [findCollision, hc] using h
        subst hw
        exact ⟨List.mem_cons_self _ _, hc⟩
      · have hc2 : am.is_collision r.address addr = false := by
          cases h2 : am.is_collision r.address addr
          · rfl
          · exact absurd h2 hc
        have := ih (by simpa [findCollision, hc2] using h)
        exact ⟨List.mem_cons_of_mem _ this.1, this.2⟩

theorem findCollIdx_spec (am : AddressMapping) (addr : Nat) :
    ∀ (l : List (Option Request)) (k j : Nat),
      findCollIdx am addr k l = some j →
      ∃ idx rj, j = k + idx ∧ l[idx]? = some (some rj) ∧
        am.is_collision rj.address addr = true := by
  intro l
  induction l with
  | nil => intro k j h; simp [findCollIdx] at h
  | cons e rest ih =>
    intro k j h
    cases e with
    | none =>
      obtain ⟨idx, rj, h1, h2, h3⟩ := ih (k + 1) j (by simpa [findCollIdx] using h)
      exact ⟨idx + 1, rj, by omega, by simpa using h2, h3⟩
    | some r =>
      by_cases hc : am.is_collision r.address addr = true
      · have hj : j = k := by simpa [findCollIdx, hc] using h.symm
        exact ⟨0, r, by omega, by simp, hc⟩
      · have hc2 : am.is_collision r.address addr = false := by
          cases h2 : am.is_collision r.address addr
          · rfl
          · exact absurd h2 hc
        obtain ⟨idx, rj, h1, h2, h3⟩ := ih (k + 1) j (by simpa [findCollIdx, hc2] using h)
        exact ⟨idx + 1, rj, by omega, by simpa using h2, h3⟩

theorem findOtherIdx_spec (am : AddressMapping) (rq : List (Option Request))
    (i : Nat) (addr : Nat) (j : Nat)
    (h : findOtherIdx am rq i addr = some j) :
    ∃ rj, rq[j]? = some (some rj) ∧ am.is_collision rj.address addr = true := by
  unfold findOtherIdx at h
  cases hb : findCollIdx am addr 0 (rq.take i) with
  | some j0 =>
    rw [hb] at h
    obtain ⟨idx, rj, h1, h2, h3⟩ := findCollIdx_spec am addr (rq.take i) 0 j0 hb
    have hj : j = j0 := by simpa using h.symm
    subst hj
    rw [List.getElem?_take] at h2
    by_cases hlt : idx < i
    · rw [if_pos hlt] at h2
      exact ⟨rj, by rw [h1]; simpa using h2, h3⟩
    · rw [if_neg hlt] at h2
      exact absurd h2 (by simp)
  | none =>
    rw [hb] at h
    cases hf : findCollIdx am addr 0 (rq.drop (i + 1)) with
    | none => rw [hf] at h; simp at h
    | some j1 =>
      rw [hf] at h
      obtain ⟨idx, rj, h1, h2, h3⟩ := findCollIdx_spec am addr (rq.drop (i + 1)) 0 j1 hf
      have hj : j = j1 + i + 1 := by simpa using h.symm
      subst hj
      rw [List.getElem?_drop] at h2
      refine ⟨rj, ?_, h3⟩
      have he : j1 + i + 1 = i + 1 + idx := by omega
      rw [he]
      exact h2

theorem mergeAt_getElem?_ne (rq : List (Option Request)) (j : Nat) (src : Request)
    (i : Nat) (hij : j ≠ i) : (mergeAt rq j src)[i]? = rq[i]? := by
  unfold mergeAt
  cases hjq : rq[j]? with
  | none => rfl
  | some e =>
    cases e with
    | none => rfl
    | some d => exact List.getElem?_set_ne hij

theorem mergeAt_len (rq : List (Option Request)) (j : Nat) (src : Request) :
    (mergeAt rq j src).length = rq.length := by
  unfold mergeAt
  cases hjq : rq[j]? with
  | none => rfl
  | some e =>
    cases e with
    | none => rfl
    | some d => exact List.length_set rq j _

theorem mergeAt_getElem?_none (rq : List (Option Request)) (j : Nat) (src : Request)
    (i : Nat) (hi : rq[i]? = some none) : (mergeAt rq j src)[i]? = some none := by
  by_cases hij : j = i
  · subst hij
    unfold mergeAt
    rw [hi]
    exact hi
  · rw [mergeAt_getElem?_ne rq j src i hij]
    exact hi

theorem rccStep_len (am : AddressMapping) (wq : List (Option Request))
    (st : List (Option Request) × List (Nat × Response)) (k : Nat) :
    (rccStep am wq st k).1.length = st.1.length := by
  unfold rccStep
  cases hq : st.1[k]? with
  | none => rfl
  | some e =>
    cases e with
    | none => rfl
    | some r =>
      dsimp only
      cases hfc : r.forward_checked
      · simp only [Bool.false_eq_true, if_false]
        cases hw : findCollision am r.address wq
        · cases ho : findOtherIdx am st.1 k r.address
          · dsimp only; exact List.length_set _ _ _
          · dsimp only; rw [List.length_set, mergeAt_len]
        · dsimp only; exact List.length_set _ _ _
      · simp only [if_true]

theorem rccStep_out_mono (am : AddressMapping) (wq : List (Option Request))
    (st : List (Option Request) × List (Nat × Response)) (k : Nat) :
    ∃ t, (rccStep am wq st k).2 = st.2 ++ t := by
  unfold rccStep
  cases hq : st.1[k]? with
  | none => exact ⟨[], by simp⟩
  | some e =>
    cases e with
    | none => exact ⟨[], by simp⟩
    | some r =>
      dsimp only
      cases hfc : r.forward_checked
      · simp only [Bool.false_eq_true, if_false]
        cases hw : findCollision am r.address wq
        · cases ho : findOtherIdx am st.1 k r.address
          · exact ⟨[], by simp⟩
          · exact ⟨[], by simp⟩
        · exact ⟨_, rfl⟩
      · simp only [if_true]
        exact ⟨[], by simp⟩

theorem rccStep_keep (am : AddressMapping) (wq : List (Option Request))
    (st : List (Option Request) × List (Nat × Response)) (i k : Nat) (r w : Request)
    (hk : k ≠ i) (hi : st.1[i]? = some (some r))
    (hw : findCollision am r.address wq = some w) :
    (rccStep am wq st k).1[i]? = some (some r) := by
  unfold rccStep
  cases hq : st.1[k]? with
  | none => exact hi
  | some e =>
    cases e with
    | none => exact hi
    | some rk =>
      dsimp only
      cases hfc : rk.forward_checked
      · simp only [Bool.false_eq_true, if_false]
        cases hwk : findCollision am rk.address wq with
        | some _ =>
          dsimp only
          rw [List.getElem?_set_ne hk]
          exact hi
        | none =>
          cases ho : findOtherIdx am st.1 k rk.address with
          | none =>
            dsimp only
            rw [List.getElem?_set_ne hk]
            exact hi
          | some j =>
            dsimp only
            rw [List.getElem?_set_ne hk]
            by_cases hji : j = i
            · exfalso
              obtain ⟨rj, hj1, hj2⟩ := findOtherIdx_spec am st.1 k rk.address j ho
              rw [hji, hi] at hj1
              have hreq : r = rj := by
                injection hj1 with h1
                injection h1
              rw [← hreq] at hj2
              have hmem := findCollision_mem am r.address wq w hw
              have hfalse := (findCollision_eq_none_iff am rk.address wq).mp hwk (some w) hmem.1
              have hkey : w.address - am.get_offset w.address =
                  rk.address - am.get_offset rk.address := by
                rw [(is_collision_true_iff _ _ _).mp hmem.2]
                exact (is_collision_true_iff _ _ _).mp hj2
              have htrue : occCollides am rk.address (some w) = true := by
                simp only [occCollides, is_collision_true_iff]
                exact hkey
              rw [hfalse] at htrue
              exact Bool.false_ne_true htrue
            · rw [mergeAt_getElem?_ne st.1 j rk i hji]
              exact hi
      · simp only [if_true]
        exact hi

theorem rccStep_keep_none (am : AddressMapping) (wq : List (Option Request))
    (st : List (Option Request) × List (Nat × Response)) (i k : Nat)
    (hi : st.1[i]? = some none) :
    (rccStep am wq st k).1[i]? = some none := by
  unfold rccStep
  cases hq : st.1[k]? with
  | none => exact hi
  | some e =>
    cases e with
    | none => exact hi
    | some rk =>
      dsimp only
      have hk : k ≠ i := by
        intro he
        rw [he, hi] at hq
        exact Option.noConfusion (Option.some_inj.mp hq)
      cases hfc : rk.forward_checked
      · simp only [Bool.false_eq_true, if_false]
        cases hwk : findCollision am rk.address wq with
        | some _ =>
          dsimp only
          rw [List.getElem?_set_ne hk]
          exact hi
        | none =>
          cases ho : findOtherIdx am st.1 k rk.address with
          | none =>
            dsimp only
            rw [List.getElem?_set_ne hk]
            exact hi
          | some j =>
            dsimp only
            rw [List.getElem?_set_ne hk]
            exact mergeAt_getElem?_none st.1 j rk i hi
      · simp only [if_true]
        exact hi

theorem rccStep_forward (am : AddressMapping) (wq : List (Option Request))
    (st : List (Option Request) × List (Nat × Response)) (i : Nat) (r w : Request)
    (hi : st.1[i]? = some (some r)) (hfc : r.forward_checked = false)
    (hw : findCollision am r.address wq = some w) :
    rccStep am wq st i =
      (st.1.set i none, st.2 ++ r.to_return.map (fun s => (s, fwdResponse r w))) := by
  unfold rccStep
  rw [hi]
  dsimp only
  rw [hfc]
  simp only [Bool.false_eq_true, if_false]
  rw [hw]

/-- C6: an un-forward-checked RQ entry that collides (block sense) with an
occupied WQ entry is satisfied immediately by check_read_collision: a
response carrying the WQ entry's data (and the read's addresses, metadata
and dependencies) is pushed to every return sink of the read, the RQ slot
is reset, and the colliding WQ entry is (and stays, WQ being read-only in
this pass) in WQ. -/
theorem c6_write_forwarding (am : AddressMapping) (wq rq : List (Option Request))
    (i : Nat) (r w : Request)
    (hi : rq[i]? = some (some r)) (hfc : r.forward_checked = false)
    (hw : findCollision am r.address wq = some w) :
    (check_read_collision am wq rq).1[i]? = some none ∧
    (∀ s ∈ r.to_return, (s, fwdResponse r w) ∈ (check_read_collision am wq rq).2) ∧
    (∃ j : Nat, wq[j]? = some (some w) ∧ am.is_collision w.address r.address = true) := by
  have hin : i < rq.length := (List.getElem?_eq_some.mp hi).1
  have hmem := findCollision_mem am r.address wq w hw
  obtain ⟨jw, hjw⟩ := List.mem_iff_getElem?.mp hmem.1
  unfold check_read_collision
  rw [List.range_eq_range']
  have hsplit : List.range' 0 rq.length = List.range' 0 i ++ List.range' i (rq.length - i) := by
    have h2 := List.range'_append 0 i (rq.length - i) 1
    simp only [Nat.one_mul, Nat.zero_add] at h2
    rw [h2]
    congr 1
    omega
  rw [hsplit, List.foldl_append]
  set st1 := List.foldl (rccStep am wq) (rq, ([] : List (Nat × Response)))
    (List.range' 0 i) with hst1
  have hP1 : st1.1[i]? = some (some r) ∧ st1.1.length = rq.length := by
    rw [hst1]
    exact foldl_inv_range'
      (fun st => st.1[i]? = some (some r) ∧ st.1.length = rq.length)
      (rccStep am wq) i 0
      (fun b k hk1 hk2 hb =>
        ⟨rccStep_keep am wq b i k r w (by omega) hb.1 hw,
         by rw [rccStep_len]; exact hb.2⟩)
      (rq, []) ⟨hi, rfl⟩
  have hrange2 : List.range' i (rq.length - i) =
      i :: List.range' (i + 1) (rq.length - i - 1) := by
    have he : rq.length - i = (rq.length - i - 1) + 1 := by omega
    rw [he]
    rfl
  rw [hrange2, List.foldl_cons, rccStep_forward am wq st1 i r w hP1.1 hfc hw]
  have hfinal := foldl_inv_range'
    (fun st : List (Option Request) × List (Nat × Response) =>
      st.1[i]? = some none ∧ ∀ s ∈ r.to_return, (s, fwdResponse r w) ∈ st.2)
    (rccStep am wq) (rq.length - i - 1) (i + 1)
    (fun b k hk1 hk2 hb =>
      ⟨rccStep_keep_none am wq b i k hb.1,
       fun s hs => by
         obtain ⟨t, ht⟩ := rccStep_out_mono am wq b k
         rw [ht]
         exact List.mem_append_left _ (hb.2 s hs)⟩)
    (st1.1.set i none, st1.2 ++ r.to_return.map (fun s => (s, fwdResponse r w)))
    ⟨by
      have hlt : i < st1.1.length := by rw [hP1.2]; exact hin
      exact List.getElem?_set_self hlt,
     fun s hs => List.mem_append_right _ (List.mem_map.mpr ⟨s, hs, rfl⟩)⟩
  exact ⟨hfinal.1, hfinal.2, jw, hjw, hmem.2⟩

/-- C6 witness: a concrete forwarded read at the channel's queues. -/
theorem c6_witness :
    (check_read_collision amW wqC6 rqC6).1[0]? = some none ∧
    (∀ s ∈ (mkReq 0 false [5] [9]).to_return,
      (s, fwdResponse (mkReq 0 false [5] [9]) ⟨4, true, false, 0, [⟨4, 4, 77, 0, [], []⟩]⟩) ∈
        (check_read_collision amW wqC6 rqC6).2) ∧
    (∃ j : Nat, wqC6[j]? = some (some ⟨4, true, false, 0, [⟨4, 4, 77, 0, [], []⟩]⟩) ∧
      amW.is_collision 4 0 = true) :=
  c6_write_forwarding amW wqC6 rqC6 0 (mkReq 0 false [5] [9])
    ⟨4, true, false, 0, [⟨4, 4, 77, 0, [], []⟩]⟩ (by rfl) (by rfl) (by rfl)
theorem anyIdx_eq_false_iff (p : Nat → α → Bool) :
    ∀ (xs : List α) (k : Nat),
      anyIdx p k xs = false ↔ ∀ i x, xs[i]? = some x → p (k + i) x = false := by
  intro xs
  induction xs with
  | nil => intro k; simp [anyIdx]
  | cons y ys ih =>
    intro k
    simp only [anyIdx, Bool.or_eq_false_iff, ih (k + 1)]
    constructor
    · rintro ⟨h1, h2⟩ i x hx
      cases i with
      | zero =>
        simp only [List.getElem?_cons_zero] at hx
        rw [← Option.some_inj.mp hx]
        simpa using h1
      | succ n =>
        simp only [List.getElem?_cons_succ] at hx
        have := h2 n x hx
        have he : k + (n + 1) = k + 1 + n := by omega
        rw [he]
        exact this
    · intro h
      constructor
      · have := h 0 y (by simp)
        simpa using this
      · intro i x hx
        have := h (i + 1) x (by simpa using hx)
        have he : k + (i + 1) = k + 1 + i := by omega
        rw [← he]
        exact this

theorem is_collision_symm (am : AddressMapping) (a b : Nat) :
    am.is_collision a b = am.is_collision b a := by
  simp [AddressMapping.is_collision, eq_comm]

theorem hasOtherCollision_false_spec (am : AddressMapping) (st : List (Option Request))
    (k : Nat) (addr : Nat) (h : hasOtherCollision am st k addr = false) :
    ∀ j (r2 : Request), j ≠ k → st[j]? = some (some r2) →
      am.is_collision r2.address addr = false := by
  intro j r2 hjk hj
  have hspec := (anyIdx_eq_false_iff _ st 0).mp h j (some r2) hj
  simp only [Nat.zero_add] at hspec
  simpa [hjk, occCollides] using hspec

theorem wccStep_len (am : AddressMapping) (st : List (Option Request)) (k : Nat) :
    (wccStep am st k).length = st.length := by
  unfold wccStep
  cases hq : st[k]? with
  | none => rfl
  | some e =>
    cases e with
    | none => rfl
    | some r =>
      dsimp only
      cases hfc : r.forward_checked
      · simp only [Bool.false_eq_true, if_false]
        cases ho : hasOtherCollision am st k r.address
        · simp only [Bool.false_eq_true, if_false, List.length_set]
        · simp only [if_true, List.length_set]
      · simp only [if_true]

theorem wccStep_getElem?_ne (am : AddressMapping) (st : List (Option Request))
    (k i : Nat) (hik : i ≠ k) : (wccStep am st k)[i]? = st[i]? := by
  unfold wccStep
  cases hq : st[k]? with
  | none => rfl
  | some e =>
    cases e with
    | none => rfl
    | some r =>
      dsimp only
      cases hfc : r.forward_checked
      · simp only [Bool.false_eq_true, if_false]
        cases ho : hasOtherCollision am st k r.address
        · simp only [Bool.false_eq_true, if_false]
          exact List.getElem?_set_ne (fun he => hik he.symm)
        · simp only [if_true]
          exact List.getElem?_set_ne (fun he => hik he.symm)
      · simp only [if_true]

theorem wccStep_shrink (am : AddressMapping) (st : List (Option Request))
    (k j : Nat) (r2 : Request)
    (h : (wccStep am st k)[j]? = some (some r2)) :
    ∃ r2p, st[j]? = some (some r2p) ∧ r2p.address = r2.address ∧
      (r2p.forward_checked = true → r2.forward_checked = true) := by
  by_cases hjk : j = k
  · subst hjk
    unfold wccStep at h
    cases hq : st[j]? with
    | none => rw [hq] at h; exact absurd h (by simp [hq])
    | some e =>
      rw [hq] at h
      cases e with
      | none => exact absurd h (by rw [hq] at h ⊢; exact fun _ => Option.noConfusion (Option.some_inj.mp h))
      | some r =>
        dsimp only at h
        cases hfc : r.forward_checked
        · rw [hfc] at h
          simp only [Bool.false_eq_true, if_false] at h
          cases ho : hasOtherCollision am st j r.address
          · rw [ho] at h
            simp only [Bool.false_eq_true, if_false] at h
            have hlen : j < st.length := (List.getElem?_eq_some.mp hq).1
            rw [List.getElem?_set_self hlen] at h
            have hr2 : r2 = { r with forward_checked := true } :=
              (Option.some_inj.mp (Option.some_inj.mp h)).symm
            exact ⟨r, rfl, by rw [hr2], by intro hcon; rw [hr2]⟩
          · rw [ho] at h
            simp only [if_true] at h
            have hlen : j < st.length := (List.getElem?_eq_some.mp hq).1
            rw [List.getElem?_set_self hlen] at h
            exact absurd h (by intro hc; exact Option.noConfusion (Option.some_inj.mp hc))
        · rw [hfc] at h
          simp only [if_true] at h
          rw [hq] at h
          have hr2 : r2 = r := (Option.some_inj.mp (Option.some_inj.mp h)).symm
          exact ⟨r, rfl, by rw [hr2], by intro hx; rw [hr2]; exact hx⟩
  · rw [wccStep_getElem?_ne am st k j hjk] at h
    exact ⟨r2, h, rfl, fun hx => hx⟩

theorem cwc_no_dup (am : AddressMapping) (wq : List (Option Request))
    (h : ∀ (i j : Nat) (ri rj : Request), i ≠ j → wq[i]? = some (some ri) →
      wq[j]? = some (some rj) → ri.forward_checked = true → rj.forward_checked = true →
      am.is_collision ri.address rj.address = false) :
    ∀ (i j : Nat) (ri rj : Request), i ≠ j →
      (check_write_collision am wq)[i]? = some (some ri) →
      (check_write_collision am wq)[j]? = some (some rj) →
      am.is_collision ri.address rj.address = false := by
  have hstep : ∀ (st : List (Option Request)) (k : Nat), k < wq.length →
      (st.length = wq.length ∧
        (∀ i, k ≤ i → st[i]? = wq[i]?) ∧
        (∀ i, i < k → ∀ r : Request, st[i]? = some (some r) →
          r.forward_checked = true ∧
            ((∀ j (r2 : Request), j ≠ i → st[j]? = some (some r2) →
                am.is_collision r2.address r.address = false)
              ∨ (∃ r0 : Request, wq[i]? = some (some r0) ∧ r0.forward_checked = true ∧
                  r0.address = r.address)))) →
      ((wccStep am st k).length = wq.length ∧
        (∀ i, k + 1 ≤ i → (wccStep am st k)[i]? = wq[i]?) ∧
        (∀ i, i < k + 1 → ∀ r : Request, (wccStep am st k)[i]? = some (some r) →
          r.forward_checked = true ∧
            ((∀ j (r2 : Request), j ≠ i → (wccStep am st k)[j]? = some (some r2) →
                am.is_collision r2.address r.address = false)
              ∨ (∃ r0 : Request, wq[i]? = some (some r0) ∧ r0.forward_checked = true ∧
                  r0.address = r.address)))) := by
    intro st k hk hQ
    obtain ⟨hlen, hunt, hdone⟩ := hQ
    refine ⟨by rw [wccStep_len]; exact hlen, ?_, ?_⟩
    · intro i hi
      rw [wccStep_getElem?_ne am st k i (by omega)]
      exact hunt i (by omega)
    · intro i hik r hr
      by_cases hik2 : i < k
      · have hold : st[i]? = some (some r) := by
          rw [← wccStep_getElem?_ne am st k i (by omega)]
          exact hr
        obtain ⟨hfc, hdisj⟩ := hdone i hik2 r hold
        refine ⟨hfc, ?_⟩
        cases hdisj with
        | inl hl =>
          left
          intro j r2 hji hj
          obtain ⟨r2p, hr2p, haddr, _⟩ := wccStep_shrink am st k j r2 hj
          rw [← haddr]
          exact hl j r2p hji hr2p
        | inr hrg => exact Or.inr hrg
      · have hik3 : i = k := by omega
        subst hik3
        have hkl : i < st.length := by rw [hlen]; omega
        cases hq : st[i]? with
        | none =>
          exfalso
          have hle : st.length ≤ i := by
            by_contra hlt2
            push_neg at hlt2
            rw [List.getElem?_eq_getElem hlt2] at hq
            exact Option.noConfusion hq
          omega
        | some e =>
          cases e with
          | none =>
            have hseq : wccStep am st i = st := by
              unfold wccStep
              rw [hq]
            rw [hseq, hq] at hr
            exact Option.noConfusion (Option.some_inj.mp hr)
          | some rk =>
            cases hfc : rk.forward_checked
            · cases ho : hasOtherCollision am st i rk.address
              · have hseq : wccStep am st i =
                    st.set i (some { rk with forward_checked := true }) := by
                  unfold wccStep
                  rw [hq]
                  dsimp only
                  rw [hfc, ho]
                  simp
                rw [hseq, List.getElem?_set_self hkl] at hr
                have hreq : r = { rk with forward_checked := true } :=
                  (Option.some_inj.mp (Option.some_inj.mp hr)).symm
                refine ⟨by rw [hreq], Or.inl ?_⟩
                intro j r2 hji hj
                rw [hseq, List.getElem?_set_ne (fun he => hji he.symm)] at hj
                have := hasOtherCollision_false_spec am st i rk.address ho j r2 hji hj
                rw [hreq]
                exact this
              · have hseq : wccStep am st i = st.set i none := by
                  unfold wccStep
                  rw [hq]
                  dsimp only
                  rw [hfc, ho]
                  simp
                rw [hseq, List.getElem?_set_self hkl] at hr
                exact absurd (Option.some_inj.mp hr) (fun hc => Option.noConfusion hc)
            · have hseq : wccStep am st i = st := by
                unfold wccStep
                rw [hq]
                dsimp only
                rw [hfc]
                simp
              rw [hseq, hq] at hr
              have hreq : r = rk := (Option.some_inj.mp (Option.some_inj.mp hr)).symm
              refine ⟨by rw [hreq]; exact hfc, Or.inr ?_⟩
              refine ⟨r, ?_, by rw [hreq]; exact hfc, rfl⟩
              rw [← hunt i (Nat.le_refl i), hq, hreq]
  have hQfinal := foldl_inv_range_idx
    (fun (st : List (Option Request)) (k : Nat) =>
      st.length = wq.length ∧
      (∀ i, k ≤ i → st[i]? = wq[i]?) ∧
      (∀ i, i < k → ∀ r : Request, st[i]? = some (some r) →
        r.forward_checked = true ∧
          ((∀ j (r2 : Request), j ≠ i → st[j]? = some (some r2) →
              am.is_collision r2.address r.address = false)
            ∨ (∃ r0 : Request, wq[i]? = some (some r0) ∧ r0.forward_checked = true ∧
                r0.address = r.address))))
    (wccStep am) wq.length hstep wq.length 0 wq (by omega)
    ⟨rfl, fun i _ => rfl, fun i hik r _ => absurd hik (by omega)⟩
  intro i j ri rj hij hi hj
  unfold check_write_collision at hi hj
  rw [List.range_eq_range'] at hi hj
  obtain ⟨hlen, hunt, hdone⟩ := hQfinal
  have hin : i < wq.length := by
    have h2 := (List.getElem?_eq_some.mp hi).1
    rw [hlen] at h2
    exact h2
  have hjn : j < wq.length := by
    have h2 := (List.getElem?_eq_some.mp hj).1
    rw [hlen] at h2
    exact h2
  obtain ⟨hfci, hdi⟩ := hdone i (by omega) ri hi
  obtain ⟨hfcj, hdj⟩ := hdone j (by omega) rj hj
  cases hdj with
  | inl hl => exact hl i ri hij hi
  | inr hrj =>
    cases hdi with
    | inl hl =>
      rw [is_collision_symm]
      exact hl j rj (fun he => hij he.symm) hj
    | inr hri =>
      obtain ⟨r0i, h0i, hfc0i, haddr0i⟩ := hri
      obtain ⟨r0j, h0j, hfc0j, haddr0j⟩ := hrj
      rw [← haddr0i, ← haddr0j]
      exact h i j r0i r0j hij h0i h0j hfc0i hfc0j

theorem mergeAt_stable (rq : List (Option Request)) (jp : Nat) (src : Request)
    (j : Nat) (r : Request) (h : (mergeAt rq jp src)[j]? = some (some r)) :
    ∃ rp : Request, rq[j]? = some (some rp) ∧ rp.address = r.address ∧
      rp.forward_checked = r.forward_checked := by
  by_cases hjj : jp = j
  · subst hjj
    unfold mergeAt at h
    cases hq : rq[jp]? with
    | none =>
      rw [hq] at h
      rw [hq] at h
      exact Option.noConfusion h
    | some e =>
      rw [hq] at h
      cases e with
      | none =>
        rw [hq] at h
        exact Option.noConfusion (Option.some_inj.mp h)
      | some d =>
        have hlen : jp < rq.length := (List.getElem?_eq_some.mp hq).1
        rw [List.getElem?_set_self hlen] at h
        have hr : r = mergeRequest d src :=
          (Option.some_inj.mp (Option.some_inj.mp h)).symm
        exact ⟨d, rfl, by rw [hr]; rfl, by rw [hr]; rfl⟩
  · rw [mergeAt_getElem?_ne rq jp src j hjj] at h
    exact ⟨r, h, rfl, rfl⟩

theorem rccStep_stable (am : AddressMapping) (wq : List (Option Request))
    (st : List (Option Request) × List (Nat × Response)) (k j : Nat) (r : Request)
    (hjk : j ≠ k) (h : (rccStep am wq st k).1[j]? = some (some r)) :
    ∃ rp : Request, st.1[j]? = some (some rp) ∧ rp.address = r.address ∧
      rp.forward_checked = r.forward_checked := by
  unfold rccStep at h
  cases hq : st.1[k]? with
  | none => rw [hq] at h; exact ⟨r, h, rfl, rfl⟩
  | some e =>
    rw [hq] at h
    cases e with
    | none => exact ⟨r, h, rfl, rfl⟩
    | some rk =>
      dsimp only at h
      cases hfc : rk.forward_checked
      · rw [hfc] at h
        simp only [Bool.false_eq_true, if_false] at h
        cases hwk : findCollision am rk.address wq with
        | some w =>
          rw [hwk] at h
          dsimp only at h
          rw [List.getElem?_set_ne (fun he => hjk he.symm)] at h
          exact ⟨r, h, rfl, rfl⟩
        | none =>
          rw [hwk] at h
          cases ho : findOtherIdx am st.1 k rk.address with
          | none =>
            rw [ho] at h
            dsimp only at h
            rw [List.getElem?_set_ne (fun he => hjk he.symm)] at h
            exact ⟨r, h, rfl, rfl⟩
          | some jp =>
            rw [ho] at h
            dsimp only at h
            rw [List.getElem?_set_ne (fun he => hjk he.symm)] at h
            exact mergeAt_stable st.1 jp rk j r h
      · rw [hfc] at h
        simp only [if_true] at h
        exact ⟨r, h, rfl, rfl⟩

theorem crc_no_rw (am : AddressMapping) (wqp rq : List (Option Request))
    (h : ∀ (i : Nat) (r : Request), rq[i]? = some (some r) → r.forward_checked = true →
      ∀ (j : Nat) (w2 : Request), wqp[j]? = some (some w2) →
        am.is_collision w2.address r.address = false) :
    ∀ (i : Nat) (r : Request), (check_read_collision am wqp rq).1[i]? = some (some r) →
      ∀ (j : Nat) (w2 : Request), wqp[j]? = some (some w2) →
        am.is_collision w2.address r.address = false := by
  have hstep : ∀ (st : List (Option Request) × List (Nat × Response)) (k : Nat),
      k < rq.length →
      (st.1.length = rq.length ∧
        (∀ i, k ≤ i → ∀ r : Request, st.1[i]? = some (some r) →
          ∃ r0 : Request, rq[i]? = some (some r0) ∧ r0.address = r.address ∧
            r0.forward_checked = r.forward_checked) ∧
        (∀ i, i < k → ∀ r : Request, st.1[i]? = some (some r) →
          (∀ (j : Nat) (w2 : Request), wqp[j]? = some (some w2) →
              am.is_collision w2.address r.address = false)
            ∨ (∃ r0 : Request, rq[i]? = some (some r0) ∧ r0.forward_checked = true ∧
                r0.address = r.address))) →
      ((rccStep am wqp st k).1.length = rq.length ∧
        (∀ i, k + 1 ≤ i → ∀ r : Request, (rccStep am wqp st k).1[i]? = some (some r) →
          ∃ r0 : Request, rq[i]? = some (some r0) ∧ r0.address = r.address ∧
            r0.forward_checked = r.forward_checked) ∧
        (∀ i, i < k + 1 → ∀ r : Request, (rccStep am wqp st k).1[i]? = some (some r) →
          (∀ (j : Nat) (w2 : Request), wqp[j]? = some (some w2) →
              am.is_collision w2.address r.address = false)
            ∨ (∃ r0 : Request, rq[i]? = some (some r0) ∧ r0.forward_checked = true ∧
                r0.address = r.address))) := by
    intro st k hk hQ
    obtain ⟨hlen, hstab, hdone⟩ := hQ
    refine ⟨by rw [rccStep_len]; exact hlen, ?_, ?_⟩
    · intro i hi r hr
      obtain ⟨rp, hrp, haddr, hfcp⟩ := rccStep_stable am wqp st k i r (by omega) hr
      obtain ⟨r0, h0, h0a, h0f⟩ := hstab i (by omega) rp hrp
      exact ⟨r0, h0, by rw [h0a, haddr], by rw [h0f, hfcp]⟩
    · intro i hik r hr
      by_cases hik2 : i < k
      · obtain ⟨rp, hrp, haddr, _⟩ := rccStep_stable am wqp st k i r (by omega) hr
        cases hdone i hik2 rp hrp with
        | inl hl => left; rw [← haddr]; exact hl
        | inr hrg =>
          obtain ⟨r0, h0, h0f, h0a⟩ := hrg
          exact Or.inr ⟨r0, h0, h0f, by rw [h0a, haddr]⟩
      · have hik3 : i = k := by omega
        subst hik3
        have hkl : i < st.1.length := by rw [hlen]; omega
        cases hq : st.1[i]? with
        | none =>
          exfalso
          have hle : st.1.length ≤ i := by
            by_contra hlt2
            push_neg at hlt2
            rw [List.getElem?_eq_getElem hlt2] at hq
            exact Option.noConfusion hq
          omega
        | some e =>
          cases e with
          | none =>
            have hseq : rccStep am wqp st i = st := by
              unfold rccStep
              rw [hq]
            rw [hseq, hq] at hr
            exact absurd (Option.some_inj.mp hr) (fun hc => Option.noConfusion hc)
          | some rk =>
            cases hfc : rk.forward_checked
            · cases hwk : findCollision am rk.address wqp with
              | some w =>
                have hseq : (rccStep am wqp st i).1 = st.1.set i none := by
                  unfold rccStep
                  rw [hq]
                  dsimp only
                  rw [hfc]
                  simp only [Bool.false_eq_true, if_false]
                  rw [hwk]
                rw [hseq, List.getElem?_set_self hkl] at hr
                exact absurd (Option.some_inj.mp hr) (fun hc => Option.noConfusion hc)
              | none =>
                cases ho : findOtherIdx am st.1 i rk.address with
                | some jp =>
                  have hseq : (rccStep am wqp st i).1 =
                      (mergeAt st.1 jp rk).set i none := by
                    unfold rccStep
                    rw [hq]
                    dsimp only
                    rw [hfc]
                    simp only [Bool.false_eq_true, if_false]
                    rw [hwk, ho]
                  have hkl2 : i < (mergeAt st.1 jp rk).length := by
                    rw [mergeAt_len]
                    exact hkl
                  rw [hseq, List.getElem?_set_self hkl2] at hr
                  exact absurd (Option.some_inj.mp hr) (fun hc => Option.noConfusion hc)
                | none =>
                  have hseq : (rccStep am wqp st i).1 =
                      st.1.set i (some { rk with forward_checked := true }) := by
                    unfold rccStep
                    rw [hq]
                    dsimp only
                    rw [hfc]
                    simp only [Bool.false_eq_true, if_false]
                    rw [hwk, ho]
                  rw [hseq, List.getElem?_set_self hkl] at hr
                  have hreq : r = { rk with forward_checked := true } :=
                    (Option.some_inj.mp (Option.some_inj.mp hr)).symm
                  left
                  intro j w2 hj
                  have hocc := (findCollision_eq_none_iff am rk.address wqp).mp hwk
                    (some w2) (List.getElem?_mem hj)
                  rw [hreq]
                  simpa [occCollides] using hocc
            · have hseq : rccStep am wqp st i = st := by
                unfold rccStep
                rw [hq]
                dsimp only
                rw [hfc]
                simp
              rw [hseq, hq] at hr
              have hreq : r = rk := (Option.some_inj.mp (Option.some_inj.mp hr)).symm
              obtain ⟨r0, h0, h0a, h0f⟩ := hstab i (Nat.le_refl i) rk hq
              exact Or.inr ⟨r0, h0, by rw [h0f]; exact hfc, by rw [hreq]; exact h0a⟩
  have hQfinal := foldl_inv_range_idx
    (fun (st : List (Option Request) × List (Nat × Response)) (k : Nat) =>
      st.1.length = rq.length ∧
      (∀ i, k ≤ i → ∀ r : Request, st.1[i]? = some (some r) →
        ∃ r0 : Request, rq[i]? = some (some r0) ∧ r0.address = r.address ∧
          r0.forward_checked = r.forward_checked) ∧
      (∀ i, i < k → ∀ r : Request, st.1[i]? = some (some r) →
        (∀ (j : Nat) (w2 : Request), wqp[j]? = some (some w2) →
            am.is_collision w2.address r.address = false)
          ∨ (∃ r0 : Request, rq[i]? = some (some r0) ∧ r0.forward_checked = true ∧
              r0.address = r.address)))
    (rccStep am wqp) rq.length hstep rq.length 0 (rq, []) (by omega)
    ⟨rfl, fun i _ r hr => ⟨r, hr, rfl, rfl⟩, fun i hik r _ => absurd hik (by omega)⟩
  intro i r hi j w2 hj
  unfold check_read_collision at hi
  rw [List.range_eq_range'] at hi
  obtain ⟨hlenF, hstabF, hdoneF⟩ := hQfinal
  have hin : i < rq.length := by
    have h2 := (List.getElem?_eq_some.mp hi).1
    rw [hlenF] at h2
    exact h2
  cases hdoneF i (by omega) r hi with
  | inl hl => exact hl j w2 hj
  | inr hrg =>
    obtain ⟨r0, h0, h0f, h0a⟩ := hrg
    rw [← h0a]
    exact h i r0 h0 h0f j w2 hj

theorem checkedPairsOK_spec (am : AddressMapping) (q : List (Option Request))
    (h : checkedPairsOKB am q = true) :
    ∀ (i j : Nat) (ri rj : Request), i ≠ j → q[i]? = some (some ri) →
      q[j]? = some (some rj) → ri.forward_checked = true → rj.forward_checked = true →
      am.is_collision ri.address rj.address = false := by
  intro i j ri rj hij hi hj hfi hfj
  unfold checkedPairsOKB at h
  have h2 : anyIdx (fun i e =>
      anyIdx (fun j e2 => decide (i ≠ j) && checkedPairCollides am e e2) 0 q) 0 q = false := by
    simpa using h
  have houter := (anyIdx_eq_false_iff _ q 0).mp h2 i (some ri) hi
  simp only [Nat.zero_add] at houter
  have hinner := (anyIdx_eq_false_iff _ q 0).mp houter j (some rj) hj
  simp only [Nat.zero_add] at hinner
  have hd : decide (i ≠ j) = true := decide_eq_true hij
  rw [hd, Bool.true_and] at hinner
  simpa [checkedPairCollides, hfi, hfj] using hinner

theorem noBlockDupB_of (am : AddressMapping) (q : List (Option Request))
    (hp : ∀ (i j : Nat) (ri rj : Request), i ≠ j → q[i]? = some (some ri) →
      q[j]? = some (some rj) → am.is_collision ri.address rj.address = false) :
    noBlockDupB am q = true := by
  unfold noBlockDupB
  suffices hs : anyIdx (fun i e =>
      anyIdx (fun j e2 => decide (i ≠ j) && pairCollides am e e2) 0 q) 0 q = false by
    rw [hs]
    rfl
  apply (anyIdx_eq_false_iff _ q 0).mpr
  intro i e hi
  simp only [Nat.zero_add]
  apply (anyIdx_eq_false_iff _ q 0).mpr
  intro j e2 hj
  simp only [Nat.zero_add]
  cases e with
  | none => cases e2 <;> simp [pairCollides]
  | some ri =>
    cases e2 with
    | none => simp [pairCollides]
    | some rj =>
      by_cases hij : i = j
      · simp [hij]
      · have := hp i j ri rj hij hi hj
        simp [pairCollides, this]

theorem checkedRWOK_spec (am : AddressMapping) (wq rq : List (Option Request))
    (h : checkedRWOKB am wq rq = true) :
    ∀ (i : Nat) (r : Request), rq[i]? = some (some r) → r.forward_checked = true →
      ∀ (j : Nat) (w2 : Request), wq[j]? = some (some w2) →
        am.is_collision w2.address r.address = false := by
  intro i r hi hfc j w2 hj
  unfold checkedRWOKB at h
  rw [List.all_eq_true] at h
  have he := h (some r) (List.getElem?_mem hi)
  dsimp only at he
  rw [hfc] at he
  have hc : collidesOccB am r.address wq = false := by simpa using he
  unfold collidesOccB at hc
  rw [List.any_eq_false] at hc
  have := hc (some w2) (List.getElem?_mem hj)
  simpa [occCollides] using this

theorem noRWB_of (am : AddressMapping) (wq rq : List (Option Request))
    (hp : ∀ (i : Nat) (r : Request), rq[i]? = some (some r) →
      ∀ (j : Nat) (w2 : Request), wq[j]? = some (some w2) →
        am.is_collision w2.address r.address = false) :
    noRWB am wq rq = true := by
  unfold noRWB
  rw [List.all_eq_true]
  intro e he
  cases e with
  | none => rfl
  | some r =>
    obtain ⟨i, hi⟩ := List.mem_iff_getElem?.mp he
    suffices hs : collidesOccB am r.address wq = false by
      dsimp only
      rw [hs]
      rfl
    unfold collidesOccB
    rw [List.any_eq_false]
    intro x hx
    cases x with
    | none => simp [occCollides]
    | some w2 =>
      obtain ⟨j, hj⟩ := List.mem_iff_getElem?.mp hx
      have := hp i r hi j w2 hj
      simpa [occCollides] using this

/-- C5 amended: provided that on entry no two already-forward-checked
occupied WQ entries share a block, after check_write_collision no two
occupied WQ entries share a block; and provided additionally that no
already-forward-checked occupied RQ entry shares a block with an occupied
(post-write-pass) WQ entry, after check_read_collision no occupied RQ
entry shares a block with any occupied WQ entry. -/
theorem c5_collision_invariants (am : AddressMapping) (wq rq : List (Option Request))
    (h1 : checkedPairsOKB am wq = true)
    (h2 : checkedRWOKB am (check_write_collision am wq) rq = true) :
    noBlockDupB am (check_write_collision am wq) = true ∧
    noRWB am (check_write_collision am wq)
      (check_read_collision am (check_write_collision am wq) rq).1 = true := by
  constructor
  · exact noBlockDupB_of am _ (cwc_no_dup am wq (checkedPairsOK_spec am wq h1))
  · exact noRWB_of am _ _
      (crc_no_rw am (check_write_collision am wq) rq
        (checkedRWOK_spec am (check_write_collision am wq) rq h2))

/-- C5 amended-claim witness: concrete queues with un-checked colliding
writes and a forwarded read. -/
theorem c5_witness :
    checkedPairsOKB amW wqC5w = true ∧
    checkedRWOKB amW (check_write_collision amW wqC5w) rqC5w = true ∧
    noBlockDupB amW (check_write_collision amW wqC5w) = true ∧
    noRWB amW (check_write_collision amW wqC5w)
      (check_read_collision amW (check_write_collision amW wqC5w) rqC5w).1 = true :=
  ⟨by decide, by decide,
   (c5_collision_invariants amW wqC5w rqC5w (by decide) (by decide)).1,
   (c5_collision_invariants amW wqC5w rqC5w (by decide) (by decide)).2⟩
theorem setQ_active (ch : Channel) (b : Bool) (q : List (Option Request)) :
    (ch.setQ b q).active_request = ch.active_request := by cases b <;> rfl

theorem setQ_ct (ch : Channel) (b : Bool) (q : List (Option Request)) :
    (ch.setQ b q).current_time = ch.current_time := by cases b <;> rfl

theorem setQ_write_mode (ch : Channel) (b : Bool) (q : List (Option Request)) :
    (ch.setQ b q).write_mode = ch.write_mode := by cases b <;> rfl

theorem setBr_active (ch : Channel) (i : Nat) (br : BankRequest) :
    (setBr ch i br).active_request = ch.active_request := rfl

theorem setBr_ct (ch : Channel) (i : Nat) (br : BankRequest) :
    (setBr ch i br).current_time = ch.current_time := rfl

theorem getQ_setBr (ch : Channel) (i : Nat) (br : BankRequest) (b : Bool) :
    (setBr ch i br).getQ b = ch.getQ b := by cases b <;> rfl

theorem getQ_setQ_ne (ch : Channel) (b bp : Bool) (q : List (Option Request))
    (hb : bp ≠ b) : (ch.setQ bp q).getQ b = ch.getQ b := by
  cases b <;> cases bp <;> first | rfl | exact absurd rfl hb

theorem updateSlot_fields (ch : Channel) (b : Bool) (i : Nat) (f : Request → Request) :
    (ch.updateSlot b i f).active_request = ch.active_request ∧
    (ch.updateSlot b i f).current_time = ch.current_time ∧
    (ch.updateSlot b i f).write_mode = ch.write_mode ∧
    (ch.updateSlot b i f).bank_request = ch.bank_request := by
  unfold Channel.updateSlot
  exact ⟨setQ_active _ _ _, setQ_ct _ _ _, setQ_write_mode _ _ _, setQ_bank _ _ _⟩

theorem updateOptSlot_getElem?_ne (q : List (Option Request)) (i j : Nat)
    (f : Request → Request) (hij : i ≠ j) : (updateOptSlot q i f)[j]? = q[j]? := by
  unfold updateOptSlot
  cases hq : q[i]? with
  | none => rfl
  | some e =>
    cases e with
    | none => rfl
    | some r => exact List.getElem?_set_ne hij

theorem updateOptSlot_getElem?_self (q : List (Option Request)) (i : Nat)
    (f : Request → Request) (r : Request) (hq : q[i]? = some (some r)) :
    (updateOptSlot q i f)[i]? = some (some (f r)) := by
  unfold updateOptSlot
  rw [hq]
  exact List.getElem?_set_self (List.getElem?_eq_some.mp hq).1

theorem reopen_idem (ct : Nat) (r : Request) :
    reopen ct (reopen ct r) = reopen ct r := rfl

theorem swapCond_iff (ch : Channel) : swapCond ch = true ↔ swapCondSpec ch := by
  cases hwm : ch.write_mode <;>
    simp [swapCond, swapCondSpec, hwm]

theorem swapStep_fields (T : Timing) (c : Channel) (k : Nat) :
    (swapStep T c k).active_request = c.active_request ∧
    (swapStep T c k).current_time = c.current_time ∧
    (swapStep T c k).write_mode = c.write_mode ∧
    (swapStep T c k).bank_request.length = c.bank_request.length := by
  unfold swapStep
  by_cases hact : c.active_request = some k
  · rw [if_pos hact]; exact ⟨rfl, rfl, rfl, rfl⟩
  · rw [if_neg hact]
    cases hb : c.bank_request[k]? with
    | none => exact ⟨rfl, rfl, rfl, rfl⟩
    | some br =>
      dsimp only
      cases hv : br.valid
      · simp only [Bool.false_eq_true, if_false]
        exact ⟨trivial, trivial, trivial, trivial⟩
      · simp only [if_true]
        obtain ⟨h1, h2, h3, h4⟩ := updateSlot_fields
          (setBr c k (swapResetBank T c.current_time br)) br.fromWQ br.pkt
          (reopen c.current_time)
        refine ⟨by rw [h1]; rfl, by rw [h2]; rfl, by rw [h3]; rfl, ?_⟩
        rw [h4, setBr_bank, List.length_set]

theorem swapStep_bank_ne (T : Timing) (c : Channel) (k i : Nat) (hik : i ≠ k) :
    (swapStep T c k).bank_request[i]? = c.bank_request[i]? := by
  unfold swapStep
  by_cases hact : c.active_request = some k
  · rw [if_pos hact]
  · rw [if_neg hact]
    cases hb : c.bank_request[k]? with
    | none => rfl
    | some br =>
      dsimp only
      cases hv : br.valid
      · simp only [Bool.false_eq_true, if_false]
      · simp only [if_true]
        rw [(updateSlot_fields _ _ _ _).2.2.2, setBr_bank]
        exact List.getElem?_set_ne (fun he => hik he.symm)

theorem swapStep_fire (T : Timing) (c : Channel) (i : Nat) (br : BankRequest)
    (hact : c.active_request ≠ some i) (hbr : c.bank_request[i]? = some br)
    (hval : br.valid = true) :
    swapStep T c i = (setBr c i (swapResetBank T c.current_time br)).updateSlot
      br.fromWQ br.pkt (reopen c.current_time) := by
  unfold swapStep
  rw [if_neg hact, hbr]
  dsimp only
  rw [hval]
  simp

theorem swapFold_fields (T : Timing) :
    ∀ (l : List Nat) (c : Channel),
      (l.foldl (swapStep T) c).active_request = c.active_request ∧
      (l.foldl (swapStep T) c).current_time = c.current_time ∧
      (l.foldl (swapStep T) c).write_mode = c.write_mode ∧
      (l.foldl (swapStep T) c).bank_request.length = c.bank_request.length := by
  intro l
  induction l with
  | nil => intro c; exact ⟨rfl, rfl, rfl, rfl⟩
  | cons a t ih =>
    intro c
    rw [List.foldl_cons]
    obtain ⟨i1, i2, i3, i4⟩ := ih (swapStep T c a)
    obtain ⟨s1, s2, s3, s4⟩ := swapStep_fields T c a
    exact ⟨i1.trans s1, i2.trans s2, i3.trans s3, i4.trans s4⟩

theorem swapFold_bank_active (T : Timing) (ch : Channel) (a : Nat)
    (hact : ch.active_request = some a) :
    ∀ (l : List Nat) (c : Channel), c.active_request = ch.active_request →
      c.bank_request[a]? = ch.bank_request[a]? →
      (l.foldl (swapStep T) c).bank_request[a]? = ch.bank_request[a]? := by
  intro l
  induction l with
  | nil => intro c _ h2; exact h2
  | cons k t ih =>
    intro c h1 h2
    rw [List.foldl_cons]
    refine ih (swapStep T c k) ((swapStep_fields T c k).1.trans h1) ?_
    by_cases hka : k = a
    · subst hka
      have : c.active_request = some k := by rw [h1, hact]
      unfold swapStep
      rw [if_pos this]
      exact h2
    · rw [swapStep_bank_ne T c k a (fun he => hka he.symm)]
      exact h2

theorem swapStep_queue_pres (T : Timing) (c : Channel) (k : Nat) (b : Bool)
    (idx : Nat) (v : Request) (ct : Nat) (hct : c.current_time = ct)
    (hfix : reopen ct v = v) (hslot : (c.getQ b)[idx]? = some (some v)) :
    ((swapStep T c k).getQ b)[idx]? = some (some v) := by
  unfold swapStep
  by_cases hact : c.active_request = some k
  · rw [if_pos hact]; exact hslot
  · rw [if_neg hact]
    cases hb : c.bank_request[k]? with
    | none => exact hslot
    | some brk =>
      dsimp only
      cases hv : brk.valid
      · simp only [Bool.false_eq_true, if_false]
        exact hslot
      · simp only [if_true]
        unfold Channel.updateSlot
        by_cases hqb : brk.fromWQ = b
        · rw [hqb, getQ_setQ]
          rw [getQ_setBr] at *
          by_cases hidx : brk.pkt = idx
          · rw [hidx]
            rw [updateOptSlot_getElem?_self (c.getQ b) idx (reopen c.current_time) v hslot]
            rw [hct, hfix]
          · rw [updateOptSlot_getElem?_ne _ _ _ _ hidx]
            exact hslot
        · rw [getQ_setQ_ne _ _ _ _ hqb, getQ_setBr]
          exact hslot

theorem swapStep_queue_dis (T : Timing) (c : Channel) (k : Nat) (b : Bool)
    (idx : Nat) (r0 : Request) (ct : Nat) (hct : c.current_time = ct)
    (hdisj : (c.getQ b)[idx]? = some (some r0) ∨
      (c.getQ b)[idx]? = some (some (reopen ct r0))) :
    ((swapStep T c k).getQ b)[idx]? = some (some r0) ∨
      ((swapStep T c k).getQ b)[idx]? = some (some (reopen ct r0)) := by
  unfold swapStep
  by_cases hact : c.active_request = some k
  · rw [if_pos hact]; exact hdisj
  · rw [if_neg hact]
    cases hb : c.bank_request[k]? with
    | none => exact hdisj
    | some brk =>
      dsimp only
      cases hv : brk.valid
      · simp only [Bool.false_eq_true, if_false]
        exact hdisj
      · simp only [if_true]
        unfold Channel.updateSlot
        by_cases hqb : brk.fromWQ = b
        · rw [hqb, getQ_setQ, getQ_setBr]
          by_cases hidx : brk.pkt = idx
          · rw [hidx]
            cases hdisj with
            | inl h1 =>
              right
              rw [updateOptSlot_getElem?_self (c.getQ b) idx (reopen c.current_time) r0 h1, hct]
            | inr h1 =>
              right
              rw [updateOptSlot_getElem?_self (c.getQ b) idx (reopen c.current_time) _ h1,
                hct, reopen_idem]
          · rw [updateOptSlot_getElem?_ne _ _ _ _ hidx]
            exact hdisj
        · rw [getQ_setQ_ne _ _ _ _ hqb, getQ_setBr]
          exact hdisj

theorem swapFold_bank (T : Timing) (ch : Channel) (i : Nat) (br : BankRequest)
    (hbr : ch.bank_request[i]? = some br)
    (hact : ch.active_request ≠ some i) (hval : br.valid = true) :
    ((List.range ch.bank_request.length).foldl (swapStep T) ch).bank_request[i]? =
      some (swapResetBank T ch.current_time br) := by
  have hin : i < ch.bank_request.length := (List.getElem?_eq_some.mp hbr).1
  rw [List.range_eq_range']
  have hsplit : List.range' 0 ch.bank_request.length =
      List.range' 0 i ++ List.range' i (ch.bank_request.length - i) := by
    have h2 := List.range'_append 0 i (ch.bank_request.length - i) 1
    simp only [Nat.one_mul, Nat.zero_add] at h2
    rw [h2]
    congr 1
    omega
  rw [hsplit, List.foldl_append]
  have hP1 := foldl_inv_range'
    (fun c : Channel => c.bank_request[i]? = some br ∧
      c.active_request = ch.active_request ∧ c.current_time = ch.current_time ∧
      c.bank_request.length = ch.bank_request.length)
    (swapStep T) i 0
    (fun c k hk1 hk2 hc =>
      ⟨by rw [swapStep_bank_ne T c k i (by omega)]; exact hc.1,
       (swapStep_fields T c k).1.trans hc.2.1,
       (swapStep_fields T c k).2.1.trans hc.2.2.1,
       (swapStep_fields T c k).2.2.2.trans hc.2.2.2⟩)
    ch ⟨hbr, rfl, rfl, rfl⟩
  have hrange2 : List.range' i (ch.bank_request.length - i) =
      i :: List.range' (i + 1) (ch.bank_request.length - i - 1) := by
    have he : ch.bank_request.length - i = (ch.bank_request.length - i - 1) + 1 := by omega
    rw [he]
    rfl
  rw [hrange2, List.foldl_cons]
  set cMid := List.foldl (swapStep T) ch (List.range' 0 i) with hcmid
  have hfire := swapStep_fire T cMid i br (by rw [hP1.2.1]; exact hact) hP1.1 hval
  have hbank2 : (swapStep T cMid i).bank_request[i]? =
      some (swapResetBank T ch.current_time br) := by
    rw [hfire, (updateSlot_fields _ _ _ _).2.2.2, setBr_bank, hP1.2.2.1]
    apply List.getElem?_set_self
    rw [hP1.2.2.2]
    exact hin
  exact foldl_inv_range'
    (fun c : Channel => c.bank_request[i]? = some (swapResetBank T ch.current_time br))
    (swapStep T) (ch.bank_request.length - i - 1) (i + 1)
    (fun c k hk1 hk2 hc => by
      dsimp only
      rw [swapStep_bank_ne T c k i (by omega)]
      exact hc)
    (swapStep T cMid i) hbank2

theorem swapFold_queue (T : Timing) (ch : Channel) (i : Nat) (br : BankRequest)
    (r0 : Request) (hbr : ch.bank_request[i]? = some br)
    (hact : ch.active_request ≠ some i) (hval : br.valid = true)
    (hq0 : (ch.getQ br.fromWQ)[br.pkt]? = some (some r0)) :
    (((List.range ch.bank_request.length).foldl (swapStep T) ch).getQ br.fromWQ)[br.pkt]? =
      some (some (reopen ch.current_time r0)) := by
  have hin : i < ch.bank_request.length := (List.getElem?_eq_some.mp hbr).1
  rw [List.range_eq_range']
  have hsplit : List.range' 0 ch.bank_request.length =
      List.range' 0 i ++ List.range' i (ch.bank_request.length - i) := by
    have h2 := List.range'_append 0 i (ch.bank_request.length - i) 1
    simp only [Nat.one_mul, Nat.zero_add] at h2
    rw [h2]
    congr 1
    omega
  rw [hsplit, List.foldl_append]
  have hP1 := foldl_inv_range'
    (fun c : Channel =>
      ((c.getQ br.fromWQ)[br.pkt]? = some (some r0) ∨
        (c.getQ br.fromWQ)[br.pkt]? = some (some (reopen ch.current_time r0))) ∧
      c.bank_request[i]? = some br ∧
      c.active_request = ch.active_request ∧ c.current_time = ch.current_time)
    (swapStep T) i 0
    (fun c k hk1 hk2 hc =>
      ⟨swapStep_queue_dis T c k br.fromWQ br.pkt r0 ch.current_time hc.2.2.2 hc.1,
       by rw [swapStep_bank_ne T c k i (by omega)]; exact hc.2.1,
       (swapStep_fields T c k).1.trans hc.2.2.1,
       (swapStep_fields T c k).2.1.trans hc.2.2.2⟩)
    ch ⟨Or.inl hq0, hbr, rfl, rfl⟩
  have hrange2 : List.range' i (ch.bank_request.length - i) =
      i :: List.range' (i + 1) (ch.bank_request.length - i - 1) := by
    have he : ch.bank_request.length - i = (ch.bank_request.length - i - 1) + 1 := by omega
    rw [he]
    rfl
  rw [hrange2, List.foldl_cons]
  set cMid := List.foldl (swapStep T) ch (List.range' 0 i) with hcmid
  have hfire := swapStep_fire T cMid i br (by rw [hP1.2.2.1]; exact hact) hP1.2.1 hval
  have hq2 : ((swapStep T cMid i).getQ br.fromWQ)[br.pkt]? =
      some (some (reopen ch.current_time r0)) := by
    rw [hfire]
    unfold Channel.updateSlot
    rw [getQ_setQ, getQ_setBr]
    cases hP1.1 with
    | inl h1 =>
      rw [updateOptSlot_getElem?_self _ _ _ _ h1, hP1.2.2.2]
    | inr h1 =>
      rw [updateOptSlot_getElem?_self _ _ _ _ h1, hP1.2.2.2, reopen_idem]
  exact foldl_inv_range'
    (fun c : Channel =>
      (c.getQ br.fromWQ)[br.pkt]? = some (some (reopen ch.current_time r0)) ∧
      c.current_time = ch.current_time)
    (swapStep T) (ch.bank_request.length - i - 1) (i + 1)
    (fun c k hk1 hk2 hc =>
      ⟨swapStep_queue_pres T c k br.fromWQ br.pkt (reopen ch.current_time r0)
        ch.current_time hc.2 (reopen_idem _ _) hc.1,
       (swapStep_fields T c k).2.1.trans hc.2⟩)
    (swapStep T cMid i)
    ⟨hq2, ((swapStep_fields T cMid i).2.1).trans hP1.2.2.2⟩ |>.1

theorem swap_pos_eqs (T : Timing) (ch : Channel) (hc : swapCond ch = true) :
    (swap_write_mode T ch).bank_request =
      ((List.range ch.bank_request.length).foldl (swapStep T) ch).bank_request ∧
    (swap_write_mode T ch).write_mode =
      !((List.range ch.bank_request.length).foldl (swapStep T) ch).write_mode ∧
    (swap_write_mode T ch).dbus_cycle_available =
      (match ((List.range ch.bank_request.length).foldl (swapStep T) ch).active_request with
        | some a => (getBr ((List.range ch.bank_request.length).foldl (swapStep T) ch)
            a).ready_time + T.turnaround
        | none => ((List.range ch.bank_request.length).foldl (swapStep T)
            ch).current_time + T.turnaround) ∧
    (∀ b, (swap_write_mode T ch).getQ b =
      ((List.range ch.bank_request.length).foldl (swapStep T) ch).getQ b) := by
  unfold swap_write_mode
  rw [if_pos hc]
  exact ⟨rfl, rfl, rfl, fun b => by cases b <;> rfl⟩

/-- C3: swap_write_mode inverts write_mode exactly when the claim's
condition holds (HIGH and LOW are floor(|WQ|*7/8) and floor(|WQ|*6/8));
on a switch every valid bank request other than the active one is
invalidated with its open_row cleared iff its ready_time precedes
current_time + tCAS, its backing queue entry is reopened for scheduling
(scheduled = false, ready_time = current_time), and dbus_cycle_available
becomes (active's ready_time if an active request exists, else
current_time) plus the turnaround. -/
theorem c3_swap_write_mode (T : Timing) (ch : Channel) :
    ((swap_write_mode T ch).write_mode = ch.write_mode ↔ ¬ swapCondSpec ch) ∧
    (¬ swapCondSpec ch → swap_write_mode T ch = ch) ∧
    (swapCondSpec ch →
      (swap_write_mode T ch).write_mode = !ch.write_mode ∧
      (swap_write_mode T ch).dbus_cycle_available =
        (match ch.active_request with
          | some a => (getBr ch a).ready_time
          | none => ch.current_time) + T.turnaround ∧
      (∀ (i : Nat) (br : BankRequest), ch.bank_request[i]? = some br →
        ch.active_request ≠ some i → br.valid = true →
        (swap_write_mode T ch).bank_request[i]? =
          some { br with valid := false, open_row :=
            if br.ready_time < ch.current_time + T.tCAS then none else br.open_row } ∧
        (∀ r0 : Request, (ch.getQ br.fromWQ)[br.pkt]? = some (some r0) →
          ((swap_write_mode T ch).getQ br.fromWQ)[br.pkt]? =
            some (some { r0 with scheduled := false, ready_time := ch.current_time })))) := by
  have hbfold := swapFold_fields T (List.range ch.bank_request.length) ch
  have hneg : ¬ swapCondSpec ch → swap_write_mode T ch = ch := by
    intro hns
    have hcb : swapCond ch = false := by
      cases h2 : swapCond ch
      · rfl
      · exact absurd ((swapCond_iff ch).mp h2) hns
    unfold swap_write_mode
    rw [hcb]
    simp
  refine ⟨?_, hneg, ?_⟩
  · by_cases hc : swapCondSpec ch
    · have hcb : swapCond ch = true := (swapCond_iff ch).mpr hc
      have heqs := swap_pos_eqs T ch hcb
      constructor
      · intro heq
        exfalso
        rw [heqs.2.1, hbfold.2.2.1] at heq
        cases hbm : ch.write_mode <;> rw [hbm] at heq <;> exact Bool.noConfusion heq
      · intro hns
        exact absurd hc hns
    · rw [hneg hc]
      exact ⟨fun _ => hc, fun _ => rfl⟩
  · intro hc
    have hcb : swapCond ch = true := (swapCond_iff ch).mpr hc
    have heqs := swap_pos_eqs T ch hcb
    refine ⟨by rw [heqs.2.1, hbfold.2.2.1], ?_, ?_⟩
    · rw [heqs.2.2.1]
      cases hacase : ch.active_request with
      | none =>
        rw [hbfold.1, hacase]
        dsimp only
        rw [hbfold.2.1]
      | some a =>
        rw [hbfold.1, hacase]
        have hbk := swapFold_bank_active T ch a hacase
          (List.range ch.bank_request.length) ch rfl rfl
        unfold getBr
        dsimp only
        rw [hbk]
    · intro i br hbri hacti hvali
      constructor
      · rw [heqs.1]
        exact swapFold_bank T ch i br hbri hacti hvali
      · intro r0 hq0
        rw [heqs.2.2.2 br.fromWQ]
        exact swapFold_queue T ch i br r0 hbri hacti hvali hq0

/-- C3 witness: a concrete switch from read to write mode at the high
water mark, with one valid non-active bank request reset and its RQ entry
reopened. -/
theorem c3_witness :
    (swap_write_mode timW chC3).write_mode = true ∧
    (swap_write_mode timW chC3).dbus_cycle_available = 18 ∧
    (swap_write_mode timW chC3).bank_request[0]? =
      some ⟨false, false, none, 0, 0, false⟩ ∧
    ((swap_write_mode timW chC3).getQ false)[0]? =
      some (some ⟨0, true, false, 10, [⟨0, 0, 0, 0, [], []⟩]⟩) := by
  have h := (c3_swap_write_mode timW chC3).2.2 (by decide)
  have hb := h.2.2 0 ⟨true, false, some 1, 0, 0, false⟩ (by rfl) (by decide) (by decide)
  exact ⟨h.1, h.2.1, hb.1,
    hb.2 ⟨0, true, true, timeMax, [⟨0, 0, 0, 0, [], []⟩]⟩ (by rfl)⟩
